import Mathlib

/-!
# Habit tracker store: storage/json_storage.go

A shallow embedding of the JSON-file backed store of the habit tracker API
and of the models it stores, followed by theorems about identifier
assignment, lookup, update, delete, completion and statistics.

Modelling conventions.

* Go `int` is modelled by `Int`. Identifiers and counters are only ever
  produced by `++` from the stored counter, so the 64-bit bound is out of
  reach of a run of the program; no wrap-around is modelled.
* A Go `map[K]V` is modelled by an association list without duplicate keys
  (`AList`). The order of the entries stands for one of the iteration orders
  Go may pick; statements are made through `lookup`, membership and counts.
* `time.Time` is modelled by an instant plus the offset of its location, see
  `Time`. The clock (`time.Now()`) is an explicit argument `now`.
* `float64` is modelled by the rational value of a finite double, every
  operation rounding its exact result to the nearest double, ties to even,
  see `f64Round`.
* The mutex is not modelled: every method body runs atomically.
* `os.WriteFile` is modelled by a boolean argument `writeOk` telling whether
  the write of this call succeeds; the methods report the document they
  handed to it. `json.MarshalIndent` fails when a stored time does not
  marshal, see `Time.marshals`; the document is represented by the store it
  decodes to, see `JSONStorage.document`.
-/

namespace HabitTracker

/-! ## time.Time -/

/-- A `time.Time` value: the instant as nanoseconds since the Unix epoch and
the offset east of UTC, in seconds, that the value's location has at that
instant. -/
structure Time where
  nanos : Int
  offset : Int
deriving DecidableEq, Repr

/-- Go `t.Before(u)`: the instant of `t` is strictly earlier than that of `u`;
locations are ignored. -/
def Time.Before (t u : Time) : Bool :=
  decide (t.nanos < u.nanos)

/-- Number of the civil day, counted from 1970-01-01, on which the instant
falls in the value's own location. -/
def Time.dayNumber (t : Time) : Int :=
  (t.nanos / 1000000000 + t.offset) / 86400

/-- Proleptic Gregorian (year, month, day) of a day counted from 1970-01-01. -/
def civilFromDays (days : Int) : Int × Int × Int :=
  let z := days + 719468
  let era := z / 146097
  let doe := z - era * 146097
  let yoe := (doe - doe / 1460 + doe / 36524 - doe / 146096) / 365
  let y := yoe + era * 400
  let doy := doe - (365 * yoe + yoe / 4 - yoe / 100)
  let mp := (5 * doy + 2) / 153
  let d := doy - (153 * mp + 2) / 5 + 1
  let m := if mp < 10 then mp + 3 else mp - 9
  (if m ≤ 2 then y + 1 else y, m, d)

/-- Go `t.Format("2006-01-02")`: the layout prints the year, the month and the
day of the value in its own location and nothing else, so the printed text is
represented by these three numbers. -/
def Time.Format (t : Time) : Int × Int × Int :=
  civilFromDays t.dayNumber

/-- Number of the day, counted from 1970-01-01, of a proleptic Gregorian date
(year, month, day): the way back from `civilFromDays`. -/
def daysFromCivil (y m d : Int) : Int :=
  let y := if m ≤ 2 then y - 1 else y
  let era := y / 400
  let yoe := y - era * 400
  let mp := if m > 2 then m - 3 else m + 9
  let doy := (153 * mp + 2) / 5 + d - 1
  let doe := yoe * 365 + yoe / 4 - yoe / 100 + doy
  era * 146097 + doe - 719468

/-- The zone offset as `Time.MarshalJSON` prints it: whole minutes, the
seconds cut off towards zero. -/
def Time.zoneMinutes (t : Time) : Int :=
  Int.tdiv t.offset 60

/-- Whether `Time.MarshalJSON` succeeds: the year the value has in its own
location must print with four digits, so it lies in 0..9999, and the zone
offset must be under 24 hours (the second check is made by Go 1.20 and
later). -/
def Time.marshals (t : Time) : Bool :=
  decide (0 ≤ t.Format.1) && decide (t.Format.1 ≤ 9999)
    && decide (-1440 < t.zoneMinutes) && decide (t.zoneMinutes < 1440)

/-- The time that decoding the marshalled text gives back. The text holds the
wall clock reading of the value in its location, to the nanosecond, and the
zone offset in whole minutes; so the seconds of the offset are lost and move
the instant. -/
def Time.rfc3339 (t : Time) : Time :=
  { nanos := t.nanos + (t.offset - t.zoneMinutes * 60) * 1000000000
    offset := t.zoneMinutes * 60 }

/-! ## float64 -/

/-- Round a rational to an integer, to nearest, ties to the even neighbour. -/
def roundHalfEven (x : ℚ) : ℤ :=
  let f := ⌊x⌋
  if x - f < 1 / 2 then f
  else if 1 / 2 < x - f then f + 1
  else if f % 2 = 0 then f else f + 1

/-- The double nearest to a rational (IEEE 754 binary64, round to nearest,
ties to even): 53 significant bits in the binade of the argument. The
exponent range is not modelled; the values that occur in the statistics
(counts, ratios of counts and their products with 100) are far inside it. -/
def f64Round (q : ℚ) : ℚ :=
  if q = 0 then 0
  else
    let ulp : ℚ := (2 : ℚ) ^ (Int.log 2 |q| - 52)
    (roundHalfEven (q / ulp) : ℚ) * ulp

/-- Go `float64(n)` for an `int`. -/
def f64OfInt (n : Int) : ℚ := f64Round (n : ℚ)

/-- Go `x / y` on `float64`, for a divisor other than zero (the only divisions
in the store are guarded by `total > 0`). -/
def f64Div (x y : ℚ) : ℚ := f64Round (x / y)

/-- Go `x * y` on `float64`. -/
def f64Mul (x y : ℚ) : ℚ := f64Round (x * y)

/-! ## models -/

/-- The record models.Habit. -/
structure Habit where
  ID : Int
  Name : String
  Description : String
  Category : String
  Frequency : String
  CreatedAt : Time
  Completed : Bool
deriving DecidableEq, Repr

/-- The record models.Goal. -/
structure Goal where
  ID : Int
  Title : String
  Description : String
  TargetDate : Time
  CreatedAt : Time
  Completed : Bool
  CompletedAt : Time
  HabitIDs : List Int
deriving DecidableEq, Repr

/-- The record models.HabitTrack. -/
structure HabitTrack where
  ID : Int
  HabitID : Int
  Date : Time
  Completed : Bool
  Notes : String
deriving DecidableEq, Repr

/-- The times held by the record. -/
def Habit.times (h : Habit) : List Time :=
  [h.CreatedAt]

/-- The times held by the record. -/
def Goal.times (g : Goal) : List Time :=
  [g.TargetDate, g.CreatedAt, g.CompletedAt]

/-- The times held by the record. -/
def HabitTrack.times (t : HabitTrack) : List Time :=
  [t.Date]

/-- The record as it is decoded from its marshalled text. -/
def Habit.document (h : Habit) : Habit :=
  { h with CreatedAt := h.CreatedAt.rfc3339 }

/-- The record as it is decoded from its marshalled text. -/
def Goal.document (g : Goal) : Goal :=
  { g with
    TargetDate := g.TargetDate.rfc3339
    CreatedAt := g.CreatedAt.rfc3339
    CompletedAt := g.CompletedAt.rfc3339 }

/-- The record as it is decoded from its marshalled text. -/
def HabitTrack.document (t : HabitTrack) : HabitTrack :=
  { t with Date := t.Date.rfc3339 }

/-! ## storage.JSONStorage -/

/-- A Go map keyed by `int`. -/
abbrev IntMap (V : Type) := AList (fun _ : Int => V)

/-- The six exported fields of `JSONStorage`, which are also exactly what
`save` serialises. The file name and the mutex are left out. -/
structure JSONStorage where
  Habits : IntMap Habit
  Goals : IntMap Goal
  HabitTracks : IntMap HabitTrack
  NextHabitID : Int
  NextGoalID : Int
  NextTrackID : Int
deriving DecidableEq

/-- The store `NewJSONStorage` builds when the backing file does not exist:
empty maps, counters at 1. -/
def NewJSONStorage : JSONStorage :=
  { Habits := ∅, Goals := ∅, HabitTracks := ∅,
    NextHabitID := 1, NextGoalID := 1, NextTrackID := 1 }

/-- What a mutating method leaves behind: the in-memory store when it
returns, the caller's record as the method left it (the methods write the
identifier through the pointer they are given), the document handed to
`os.WriteFile` if the call got as far as the write, and whether a non-nil
error was returned. -/
structure Outcome (α : Type) where
  store : JSONStorage
  arg : α
  written : Option JSONStorage
  err : Bool

/-- The entries of a map with every value replaced by its image. -/
def IntMap.mapValues {V : Type} (f : V → V) (m : IntMap V) : IntMap V :=
  { entries := m.entries.map (fun e => ⟨e.1, f e.2⟩)
    nodupKeys := by
      have h : (m.entries.map (fun e => (⟨e.1, f e.2⟩ : (_ : Int) × V))).keys = m.entries.keys := by
        simp [List.keys, List.map_map, Function.comp_def]
      unfold List.NodupKeys
      rw [h]
      exact m.nodupKeys }

/-- The times held by the records of the three maps. -/
def JSONStorage.times (s : JSONStorage) : List Time :=
  (s.Habits.entries.map (fun e => e.2.times)).flatten
    ++ (s.Goals.entries.map (fun e => e.2.times)).flatten
    ++ (s.HabitTracks.entries.map (fun e => e.2.times)).flatten

/-- Whether `json.MarshalIndent` succeeds on the store: integers, strings,
booleans and lists of integers always marshal, so it does exactly when every
time in every record does. -/
def JSONStorage.marshals (s : JSONStorage) : Bool :=
  s.times.all Time.marshals

/-- The document `json.MarshalIndent` produces from the store, represented by
the store it decodes to: the three maps with every record as it is decoded
from its text, and the three counters. -/
def JSONStorage.document (s : JSONStorage) : JSONStorage :=
  { s with
    Habits := IntMap.mapValues Habit.document s.Habits
    Goals := IntMap.mapValues Goal.document s.Goals
    HabitTracks := IntMap.mapValues HabitTrack.document s.HabitTracks }

/-- Go `save`: serialise the whole store and, unless that fails, write the
document to the file. The result is the document handed to the write, if
any, and whether the call returned an error: when `json.MarshalIndent` fails
its error is returned and no write is attempted; otherwise the error of the
write is returned. -/
def JSONStorage.save (s : JSONStorage) (writeOk : Bool) : Option JSONStorage × Bool :=
  if s.marshals then (some s.document, !writeOk) else (none, true)

/-- Return path `return s.save()` of a mutating method. -/
def JSONStorage.returnSave {α : Type} (s : JSONStorage) (writeOk : Bool) (a : α) : Outcome α :=
  { store := s, arg := a, written := (s.save writeOk).1, err := (s.save writeOk).2 }

/-- Return path `return nil` of a mutating method: nothing is written. -/
def JSONStorage.returnNil {α : Type} (s : JSONStorage) (a : α) : Outcome α :=
  { store := s, arg := a, written := none, err := false }

/-! ### habits -/

/-- Go `GetAllHabits`. -/
def JSONStorage.GetAllHabits (s : JSONStorage) : List Habit :=
  s.Habits.entries.map (fun e => e.2)

/-- Go `GetHabitByID`: `none` is the `nil, nil` result. -/
def JSONStorage.GetHabitByID (s : JSONStorage) (id : Int) : Option Habit :=
  s.Habits.lookup id

/-- Go `CreateHabit`. -/
def JSONStorage.CreateHabit (s : JSONStorage) (writeOk : Bool) (habit : Habit) : Outcome Habit :=
  let habit := { habit with ID := s.NextHabitID }
  let s := { s with NextHabitID := s.NextHabitID + 1 }
  let s := { s with Habits := s.Habits.insert habit.ID habit }
  s.returnSave writeOk habit

/-- Go `UpdateHabit`. -/
def JSONStorage.UpdateHabit (s : JSONStorage) (writeOk : Bool) (id : Int) (habit : Habit) :
    Outcome Habit :=
  match s.Habits.lookup id with
  | none => s.returnNil habit
  | some _ =>
    let habit := { habit with ID := id }
    let s := { s with Habits := s.Habits.insert id habit }
    s.returnSave writeOk habit

/-- Go `DeleteHabit`. -/
def JSONStorage.DeleteHabit (s : JSONStorage) (writeOk : Bool) (id : Int) : Outcome Unit :=
  match s.Habits.lookup id with
  | none => s.returnNil ()
  | some _ =>
    let s := { s with Habits := s.Habits.erase id }
    s.returnSave writeOk ()

/-- Go `CompleteHabit`; `now` is the value of `time.Now()`. -/
def JSONStorage.CompleteHabit (s : JSONStorage) (writeOk : Bool) (now : Time) (id : Int) :
    Outcome Unit :=
  match s.Habits.lookup id with
  | none => s.returnNil ()
  | some habit =>
    if habit.Completed then s.returnNil ()
    else
      let habit := { habit with Completed := true }
      let s := { s with Habits := s.Habits.insert id habit }
      let track : HabitTrack :=
        { ID := s.NextTrackID, HabitID := id, Date := now, Completed := true,
          Notes := "Marked as completed via API" }
      let s := { s with NextTrackID := s.NextTrackID + 1 }
      let s := { s with HabitTracks := s.HabitTracks.insert track.ID track }
      s.returnSave writeOk ()

/-! ### goals -/

/-- Go `GetAllGoals`. -/
def JSONStorage.GetAllGoals (s : JSONStorage) : List Goal :=
  s.Goals.entries.map (fun e => e.2)

/-- Go `GetGoalByID`. -/
def JSONStorage.GetGoalByID (s : JSONStorage) (id : Int) : Option Goal :=
  s.Goals.lookup id

/-- Go `CreateGoal`. -/
def JSONStorage.CreateGoal (s : JSONStorage) (writeOk : Bool) (goal : Goal) : Outcome Goal :=
  let goal := { goal with ID := s.NextGoalID }
  let s := { s with NextGoalID := s.NextGoalID + 1 }
  let s := { s with Goals := s.Goals.insert goal.ID goal }
  s.returnSave writeOk goal

/-- Go `UpdateGoal`. -/
def JSONStorage.UpdateGoal (s : JSONStorage) (writeOk : Bool) (id : Int) (goal : Goal) :
    Outcome Goal :=
  match s.Goals.lookup id with
  | none => s.returnNil goal
  | some _ =>
    let goal := { goal with ID := id }
    let s := { s with Goals := s.Goals.insert id goal }
    s.returnSave writeOk goal

/-- Go `DeleteGoal`. -/
def JSONStorage.DeleteGoal (s : JSONStorage) (writeOk : Bool) (id : Int) : Outcome Unit :=
  match s.Goals.lookup id with
  | none => s.returnNil ()
  | some _ =>
    let s := { s with Goals := s.Goals.erase id }
    s.returnSave writeOk ()

/-- Go `CompleteGoal`; `now` is the value of `time.Now()`. -/
def JSONStorage.CompleteGoal (s : JSONStorage) (writeOk : Bool) (now : Time) (id : Int) :
    Outcome Unit :=
  match s.Goals.lookup id with
  | none => s.returnNil ()
  | some goal =>
    if goal.Completed then s.returnNil ()
    else
      let goal := { goal with Completed := true }
      let goal := { goal with CompletedAt := now }
      let s := { s with Goals := s.Goals.insert id goal }
      s.returnSave writeOk ()

/-! ### tracks -/

/-- Go `GetAllTracks`. -/
def JSONStorage.GetAllTracks (s : JSONStorage) : List HabitTrack :=
  s.HabitTracks.entries.map (fun e => e.2)

/-- Go `GetTrackByID`. -/
def JSONStorage.GetTrackByID (s : JSONStorage) (id : Int) : Option HabitTrack :=
  s.HabitTracks.lookup id

/-- Go `CreateTrack`. -/
def JSONStorage.CreateTrack (s : JSONStorage) (writeOk : Bool) (track : HabitTrack) :
    Outcome HabitTrack :=
  let track := { track with ID := s.NextTrackID }
  let s := { s with NextTrackID := s.NextTrackID + 1 }
  let s := { s with HabitTracks := s.HabitTracks.insert track.ID track }
  s.returnSave writeOk track

/-- Go `UpdateTrack`. -/
def JSONStorage.UpdateTrack (s : JSONStorage) (writeOk : Bool) (id : Int) (track : HabitTrack) :
    Outcome HabitTrack :=
  match s.HabitTracks.lookup id with
  | none => s.returnNil track
  | some _ =>
    let track := { track with ID := id }
    let s := { s with HabitTracks := s.HabitTracks.insert id track }
    s.returnSave writeOk track

/-- Go `DeleteTrack`. -/
def JSONStorage.DeleteTrack (s : JSONStorage) (writeOk : Bool) (id : Int) : Outcome Unit :=
  match s.HabitTracks.lookup id with
  | none => s.returnNil ()
  | some _ =>
    let s := { s with HabitTracks := s.HabitTracks.erase id }
    s.returnSave writeOk ()

/-! ### statistics -/

/-- The record `CategoryStats`. -/
structure CategoryStats where
  Total : Int
  Completed : Int
  Percentage : ℚ
deriving DecidableEq

/-- A Go map keyed by `string`. -/
abbrev StringMap (V : Type) := AList (fun _ : String => V)

/-- The record `Statistics`. -/
structure Statistics where
  TotalHabits : Int
  CompletedHabits : Int
  HabitCompletionRate : ℚ
  TotalGoals : Int
  CompletedGoals : Int
  GoalCompletionRate : ℚ
  OverdueGoals : Int
  TodayCompleted : Int
  TotalItems : Int
  CompletedItems : Int
  OverallProgress : ℚ
  Categories : StringMap CategoryStats
deriving DecidableEq

/-- The zero value of `CategoryStats`, which indexing a Go map yields for a
key that is not in it. -/
def CategoryStats.zero : CategoryStats :=
  { Total := 0, Completed := 0, Percentage := 0 }

/-- Go `float64(a) / float64(b) * 100`. -/
def percentOf (a b : Int) : ℚ :=
  f64Mul (f64Div (f64OfInt a) (f64OfInt b)) 100

/-- One turn of the loop over `s.Habits` in `GetStatistics`; the loop state is
`completedHabits` and `stats.Categories`. -/
def habitStep (acc : Int × StringMap CategoryStats) (habit : Habit) :
    Int × StringMap CategoryStats :=
  let completedHabits := if habit.Completed then acc.1 + 1 else acc.1
  let catStats := (acc.2.lookup habit.Category).getD CategoryStats.zero
  let catStats := { catStats with Total := catStats.Total + 1 }
  let catStats :=
    if habit.Completed then { catStats with Completed := catStats.Completed + 1 } else catStats
  (completedHabits, acc.2.insert habit.Category catStats)

/-- One turn of the loop over `s.Goals`; the loop state is `completedGoals` and
`overdueGoals`. -/
def goalStep (now : Time) (acc : Int × Int) (goal : Goal) : Int × Int :=
  if goal.Completed then (acc.1 + 1, acc.2)
  else if goal.TargetDate.Before now then (acc.1, acc.2 + 1)
  else acc

/-- One turn of the loop over `s.HabitTracks`; the loop state is
`todayCompleted`. -/
def trackStep (today : Int × Int × Int) (todayCompleted : Int) (track : HabitTrack) : Int :=
  if track.Date.Format = today && track.Completed then todayCompleted + 1 else todayCompleted

/-- The body of the loop over `stats.Categories` up to the store back into the
map: the percentage is filled in when the total is positive. -/
def CategoryStats.withPercentage (catStats : CategoryStats) : CategoryStats :=
  if catStats.Total > 0 then
    { catStats with Percentage := percentOf catStats.Completed catStats.Total }
  else catStats

/-- One turn of the loop over `stats.Categories` that fills in the
percentages; the loop state is the map itself. -/
def categoryStep (cats : StringMap CategoryStats) (e : (_ : String) × CategoryStats) :
    StringMap CategoryStats :=
  cats.insert e.1 e.2.withPercentage

/-- The counts of one category over a list of habits, added to the counts of
`base`: how many habits carry the category string `c`, and how many of those
are completed. -/
def categoryCounts (base : CategoryStats) (habits : List Habit) (c : String) : CategoryStats :=
  { Total := base.Total + (habits.countP (fun h => decide (h.Category = c)) : Nat)
    Completed :=
      base.Completed + (habits.countP (fun h => decide (h.Category = c) && h.Completed) : Nat)
    Percentage := base.Percentage }

/-- Go `GetStatistics`; `now` is the value of `time.Now()`. -/
def JSONStorage.GetStatistics (s : JSONStorage) (now : Time) : Statistics :=
  let totalHabits : Int := s.Habits.entries.length
  let hp := (s.Habits.entries.map (fun e => e.2)).foldl habitStep (0, ∅)
  let completedHabits := hp.1
  let categories := hp.2
  let habitCompletionRate : ℚ :=
    if totalHabits > 0 then percentOf completedHabits totalHabits else 0
  let totalGoals : Int := s.Goals.entries.length
  let gp := (s.Goals.entries.map (fun e => e.2)).foldl (goalStep now) (0, 0)
  let completedGoals := gp.1
  let overdueGoals := gp.2
  let goalCompletionRate : ℚ :=
    if totalGoals > 0 then percentOf completedGoals totalGoals else 0
  let today := now.Format
  let todayCompleted := (s.HabitTracks.entries.map (fun e => e.2)).foldl (trackStep today) 0
  let totalItems := totalHabits + totalGoals
  let completedItems := completedHabits + completedGoals
  let overallProgress : ℚ :=
    if totalItems > 0 then percentOf completedItems totalItems else 0
  let categories := categories.entries.foldl categoryStep categories
  { TotalHabits := totalHabits
    CompletedHabits := completedHabits
    HabitCompletionRate := habitCompletionRate
    TotalGoals := totalGoals
    CompletedGoals := completedGoals
    GoalCompletionRate := goalCompletionRate
    OverdueGoals := overdueGoals
    TodayCompleted := todayCompleted
    TotalItems := totalItems
    CompletedItems := completedItems
    OverallProgress := overallProgress
    Categories := categories }

/-- The snapshot with every count and every percentage 0 and no category. -/
def Statistics.zero : Statistics :=
  { TotalHabits := 0, CompletedHabits := 0, HabitCompletionRate := 0, TotalGoals := 0,
    CompletedGoals := 0, GoalCompletionRate := 0, OverdueGoals := 0, TodayCompleted := 0,
    TotalItems := 0, CompletedItems := 0, OverallProgress := 0, Categories := ∅ }

/-! ### runs of creates and deletes -/

/-- A call in a run of creates and deletes on one entity type; every call
carries whether its write to the file succeeds. -/
inductive EntityOp (E : Type) where
  | create (writeOk : Bool) (e : E)
  | delete (writeOk : Bool) (id : Int)

/-- Number of creates in a run. -/
def createCount {E : Type} : List (EntityOp E) → Nat
  | [] => 0
  | .create _ _ :: ops => createCount ops + 1
  | .delete _ _ :: ops => createCount ops

/-- Run creates and deletes of habits in order; the result is the final store
and the identifiers the creates handed back, in call order. -/
def runHabitOps : JSONStorage → List (EntityOp Habit) → JSONStorage × List Int
  | s, [] => (s, [])
  | s, .create ok e :: ops =>
    let o := s.CreateHabit ok e
    let r := runHabitOps o.store ops
    (r.1, o.arg.ID :: r.2)
  | s, .delete ok id :: ops => runHabitOps (s.DeleteHabit ok id).store ops

/-- Run creates and deletes of goals in order. -/
def runGoalOps : JSONStorage → List (EntityOp Goal) → JSONStorage × List Int
  | s, [] => (s, [])
  | s, .create ok e :: ops =>
    let o := s.CreateGoal ok e
    let r := runGoalOps o.store ops
    (r.1, o.arg.ID :: r.2)
  | s, .delete ok id :: ops => runGoalOps (s.DeleteGoal ok id).store ops

/-- Run creates and deletes of tracks in order. -/
def runTrackOps : JSONStorage → List (EntityOp HabitTrack) → JSONStorage × List Int
  | s, [] => (s, [])
  | s, .create ok e :: ops =>
    let o := s.CreateTrack ok e
    let r := runTrackOps o.store ops
    (r.1, o.arg.ID :: r.2)
  | s, .delete ok id :: ops => runTrackOps (s.DeleteTrack ok id).store ops

/-! ### runs of calls of any of the mutating methods -/

/-- A call of one of the eleven mutating methods, with its arguments, the
value of the clock where the method reads it, and whether its write to the
file succeeds. -/
inductive StoreOp where
  | createHabit (writeOk : Bool) (habit : Habit)
  | updateHabit (writeOk : Bool) (id : Int) (habit : Habit)
  | deleteHabit (writeOk : Bool) (id : Int)
  | completeHabit (writeOk : Bool) (now : Time) (id : Int)
  | createGoal (writeOk : Bool) (goal : Goal)
  | updateGoal (writeOk : Bool) (id : Int) (goal : Goal)
  | deleteGoal (writeOk : Bool) (id : Int)
  | completeGoal (writeOk : Bool) (now : Time) (id : Int)
  | createTrack (writeOk : Bool) (track : HabitTrack)
  | updateTrack (writeOk : Bool) (id : Int) (track : HabitTrack)
  | deleteTrack (writeOk : Bool) (id : Int)

/-- The in-memory store after a call. -/
def JSONStorage.afterOp (s : JSONStorage) : StoreOp → JSONStorage
  | .createHabit ok habit => (s.CreateHabit ok habit).store
  | .updateHabit ok id habit => (s.UpdateHabit ok id habit).store
  | .deleteHabit ok id => (s.DeleteHabit ok id).store
  | .completeHabit ok now id => (s.CompleteHabit ok now id).store
  | .createGoal ok goal => (s.CreateGoal ok goal).store
  | .updateGoal ok id goal => (s.UpdateGoal ok id goal).store
  | .deleteGoal ok id => (s.DeleteGoal ok id).store
  | .completeGoal ok now id => (s.CompleteGoal ok now id).store
  | .createTrack ok track => (s.CreateTrack ok track).store
  | .updateTrack ok id track => (s.UpdateTrack ok id track).store
  | .deleteTrack ok id => (s.DeleteTrack ok id).store

/-- The in-memory store after a sequence of calls, in order. -/
def JSONStorage.afterOps (s : JSONStorage) (ops : List StoreOp) : JSONStorage :=
  ops.foldl JSONStorage.afterOp s

/-- The invariant of the reachable stores: the counters are at least 1, every
key of a map is at least 1 and below the counter of the map, and the record
stored under a key carries that key as its identifier. -/
def JSONStorage.Invariant (s : JSONStorage) : Prop :=
  (1 ≤ s.NextHabitID ∧ 1 ≤ s.NextGoalID ∧ 1 ≤ s.NextTrackID)
  ∧ (∀ k habit, s.GetHabitByID k = some habit → 1 ≤ k ∧ k < s.NextHabitID ∧ habit.ID = k)
  ∧ (∀ k goal, s.GetGoalByID k = some goal → 1 ≤ k ∧ k < s.NextGoalID ∧ goal.ID = k)
  ∧ (∀ k track, s.GetTrackByID k = some track → 1 ≤ k ∧ k < s.NextTrackID ∧ track.ID = k)

/-! ### sample data -/

/-- The instant 2024-01-02T00:00:00Z. -/
def sampleTime : Time := { nanos := 1704153600000000000, offset := 0 }

/-- The instant 2024-01-02T22:59:59Z, read in a location one hour east of
UTC, where it is 23:59:59 on the same day. -/
def sampleEvening : Time := { nanos := 1704236399000000000, offset := 3600 }

/-- A habit as a handler builds it before calling the store. -/
def sampleHabit : Habit :=
  { ID := 0, Name := "Run", Description := "", Category := "fitness", Frequency := "daily",
    CreatedAt := sampleTime, Completed := false }

/-- A goal as a handler builds it before calling the store. -/
def sampleGoal : Goal :=
  { ID := 0, Title := "Marathon", Description := "", TargetDate := { nanos := 0, offset := 0 },
    CreatedAt := sampleTime, Completed := false, CompletedAt := { nanos := 0, offset := 0 },
    HabitIDs := [1] }

/-- A track as a handler builds it before calling the store. -/
def sampleTrack : HabitTrack :=
  { ID := 0, HabitID := 1, Date := sampleTime, Completed := true, Notes := "" }

/-- The store after one habit, one goal and one track were created in the
empty store. -/
def sampleStore : JSONStorage :=
  (((NewJSONStorage.CreateHabit true sampleHabit).store.CreateGoal true sampleGoal).store.CreateTrack
    true sampleTrack).store

/-- The sample store after its habit and its goal were completed. -/
def completedStore : JSONStorage :=
  ((sampleStore.CompleteHabit true sampleTime 1).store.CompleteGoal true sampleTime 1).store

/-- Two habits in category "fitness", the first of them completed. -/
def fitnessStore : JSONStorage :=
  (((NewJSONStorage.CreateHabit true sampleHabit).store.CreateHabit true sampleHabit).store.CompleteHabit
    true sampleTime 1).store

/-- Three habits in category "fitness", the first of them completed. -/
def thirdsStore : JSONStorage :=
  (fitnessStore.CreateHabit true sampleHabit).store

/-- A run that touches all three maps, with two failing writes: after it the
habit and the goal under 1 are completed, the track created under 1 is
deleted and the track synthesized by the completion is stored under 2. -/
def sampleOps : List StoreOp :=
  [.createHabit true sampleHabit, .createGoal false sampleGoal, .createTrack true sampleTrack,
   .completeHabit false sampleTime 1, .deleteTrack true 1, .updateGoal true 1 sampleGoal,
   .completeGoal true sampleTime 1]

/-- The three creates that build `sampleStore`. -/
def sampleStoreOps : List StoreOp :=
  [.createHabit true sampleHabit, .createGoal true sampleGoal, .createTrack true sampleTrack]

/-- A goal whose target date, 10000-01-01T00:00:00Z, has a year that does not
print with four digits. -/
def farGoal : Goal :=
  { sampleGoal with TargetDate := { nanos := 253402300800000000000, offset := 0 } }

/-- A track whose date is read in a location 90 seconds east of UTC. -/
def oddTrack : HabitTrack :=
  { sampleTrack with Date := { nanos := 1704153600000000000, offset := 90 } }

/-- Five tracks around 2024-01-02: completed at 00:00:00Z of that day;
completed at 00:00:00Z of the day after; not completed at 00:00:00Z of that
day; completed at 22:59:59Z of that day read two hours east, where it is
00:59:59 of the day after; completed at 23:30:00Z of the day before read one
hour east, where it is 00:30:00 of that day. -/
def todayTracks : List HabitTrack :=
  [{ ID := 0, HabitID := 1, Date := { nanos := 1704153600000000000, offset := 0 },
     Completed := true, Notes := "" },
   { ID := 0, HabitID := 1, Date := { nanos := 1704240000000000000, offset := 0 },
     Completed := true, Notes := "" },
   { ID := 0, HabitID := 1, Date := { nanos := 1704153600000000000, offset := 0 },
     Completed := false, Notes := "" },
   { ID := 0, HabitID := 1, Date := { nanos := 1704236399000000000, offset := 7200 },
     Completed := true, Notes := "" },
   { ID := 0, HabitID := 1, Date := { nanos := 1704151800000000000, offset := 3600 },
     Completed := true, Notes := "" }]

/-- The store after the five tracks of `todayTracks` were created in the empty
store. -/
def todayStore : JSONStorage :=
  (runTrackOps NewJSONStorage (todayTracks.map (EntityOp.create true))).1

/-! ## The two return paths of every mutating method -/

theorem DeleteHabit_of_absent (s : JSONStorage) (ok : Bool) (i : Int)
    (h : s.GetHabitByID i = none) : s.DeleteHabit ok i = s.returnNil () := by
  unfold JSONStorage.GetHabitByID at h
  simp [JSONStorage.DeleteHabit, h]

theorem DeleteHabit_of_present (s : JSONStorage) (ok : Bool) (i : Int)
    (h : s.GetHabitByID i ≠ none) :
    s.DeleteHabit ok i
      = JSONStorage.returnSave { s with Habits := s.Habits.erase i } ok () := by
  unfold JSONStorage.GetHabitByID at h
  unfold JSONStorage.DeleteHabit
  cases h1 : s.Habits.lookup i with
  | none => exact absurd h1 h
  | some v => rfl

theorem DeleteGoal_of_absent (s : JSONStorage) (ok : Bool) (i : Int)
    (h : s.GetGoalByID i = none) : s.DeleteGoal ok i = s.returnNil () := by
  unfold JSONStorage.GetGoalByID at h
  simp [JSONStorage.DeleteGoal, h]

theorem DeleteGoal_of_present (s : JSONStorage) (ok : Bool) (i : Int)
    (h : s.GetGoalByID i ≠ none) :
    s.DeleteGoal ok i
      = JSONStorage.returnSave { s with Goals := s.Goals.erase i } ok () := by
  unfold JSONStorage.GetGoalByID at h
  unfold JSONStorage.DeleteGoal
  cases h1 : s.Goals.lookup i with
  | none => exact absurd h1 h
  | some v => rfl

theorem DeleteTrack_of_absent (s : JSONStorage) (ok : Bool) (i : Int)
    (h : s.GetTrackByID i = none) : s.DeleteTrack ok i = s.returnNil () := by
  unfold JSONStorage.GetTrackByID at h
  simp [JSONStorage.DeleteTrack, h]

theorem DeleteTrack_of_present (s : JSONStorage) (ok : Bool) (i : Int)
    (h : s.GetTrackByID i ≠ none) :
    s.DeleteTrack ok i
      = JSONStorage.returnSave { s with HabitTracks := s.HabitTracks.erase i } ok () := by
  unfold JSONStorage.GetTrackByID at h
  unfold JSONStorage.DeleteTrack
  cases h1 : s.HabitTracks.lookup i with
  | none => exact absurd h1 h
  | some v => rfl

theorem UpdateHabit_of_absent (s : JSONStorage) (ok : Bool) (i : Int) (r : Habit)
    (h : s.GetHabitByID i = none) : s.UpdateHabit ok i r = s.returnNil r := by
  unfold JSONStorage.GetHabitByID at h
  simp [JSONStorage.UpdateHabit, h]

theorem UpdateHabit_of_present (s : JSONStorage) (ok : Bool) (i : Int) (r : Habit)
    (h : s.GetHabitByID i ≠ none) :
    s.UpdateHabit ok i r
      = JSONStorage.returnSave { s with Habits := s.Habits.insert i { r with ID := i } } ok
          { r with ID := i } := by
  unfold JSONStorage.GetHabitByID at h
  unfold JSONStorage.UpdateHabit
  cases h1 : s.Habits.lookup i with
  | none => exact absurd h1 h
  | some v => rfl

theorem UpdateGoal_of_absent (s : JSONStorage) (ok : Bool) (i : Int) (r : Goal)
    (h : s.GetGoalByID i = none) : s.UpdateGoal ok i r = s.returnNil r := by
  unfold JSONStorage.GetGoalByID at h
  simp [JSONStorage.UpdateGoal, h]

theorem UpdateGoal_of_present (s : JSONStorage) (ok : Bool) (i : Int) (r : Goal)
    (h : s.GetGoalByID i ≠ none) :
    s.UpdateGoal ok i r
      = JSONStorage.returnSave { s with Goals := s.Goals.insert i { r with ID := i } } ok
          { r with ID := i } := by
  unfold JSONStorage.GetGoalByID at h
  unfold JSONStorage.UpdateGoal
  cases h1 : s.Goals.lookup i with
  | none => exact absurd h1 h
  | some v => rfl

theorem UpdateTrack_of_absent (s : JSONStorage) (ok : Bool) (i : Int) (r : HabitTrack)
    (h : s.GetTrackByID i = none) : s.UpdateTrack ok i r = s.returnNil r := by
  unfold JSONStorage.GetTrackByID at h
  simp [JSONStorage.UpdateTrack, h]

theorem UpdateTrack_of_present (s : JSONStorage) (ok : Bool) (i : Int) (r : HabitTrack)
    (h : s.GetTrackByID i ≠ none) :
    s.UpdateTrack ok i r
      = JSONStorage.returnSave
          { s with HabitTracks := s.HabitTracks.insert i { r with ID := i } } ok
          { r with ID := i } := by
  unfold JSONStorage.GetTrackByID at h
  unfold JSONStorage.UpdateTrack
  cases h1 : s.HabitTracks.lookup i with
  | none => exact absurd h1 h
  | some v => rfl

theorem CompleteHabit_of_absent (s : JSONStorage) (ok : Bool) (now : Time) (i : Int)
    (h : s.GetHabitByID i = none) : s.CompleteHabit ok now i = s.returnNil () := by
  unfold JSONStorage.GetHabitByID at h
  simp [JSONStorage.CompleteHabit, h]

theorem CompleteHabit_of_completed (s : JSONStorage) (ok : Bool) (now : Time) (i : Int)
    (habit : Habit) (h : s.GetHabitByID i = some habit) (hc : habit.Completed = true) :
    s.CompleteHabit ok now i = s.returnNil () := by
  unfold JSONStorage.GetHabitByID at h
  simp [JSONStorage.CompleteHabit, h, hc]

theorem CompleteHabit_of_open (s : JSONStorage) (ok : Bool) (now : Time) (i : Int)
    (habit : Habit) (h : s.GetHabitByID i = some habit) (hc : habit.Completed = false) :
    s.CompleteHabit ok now i
      = JSONStorage.returnSave
          { s with
            Habits := s.Habits.insert i { habit with Completed := true }
            NextTrackID := s.NextTrackID + 1
            HabitTracks := s.HabitTracks.insert s.NextTrackID
              { ID := s.NextTrackID, HabitID := i, Date := now, Completed := true,
                Notes := "Marked as completed via API" } } ok () := by
  unfold JSONStorage.GetHabitByID at h
  simp [JSONStorage.CompleteHabit, h, hc]

theorem CompleteGoal_of_absent (s : JSONStorage) (ok : Bool) (now : Time) (i : Int)
    (h : s.GetGoalByID i = none) : s.CompleteGoal ok now i = s.returnNil () := by
  unfold JSONStorage.GetGoalByID at h
  simp [JSONStorage.CompleteGoal, h]

theorem CompleteGoal_of_completed (s : JSONStorage) (ok : Bool) (now : Time) (i : Int)
    (goal : Goal) (h : s.GetGoalByID i = some goal) (hc : goal.Completed = true) :
    s.CompleteGoal ok now i = s.returnNil () := by
  unfold JSONStorage.GetGoalByID at h
  simp [JSONStorage.CompleteGoal, h, hc]

theorem CompleteGoal_of_open (s : JSONStorage) (ok : Bool) (now : Time) (i : Int)
    (goal : Goal) (h : s.GetGoalByID i = some goal) (hc : goal.Completed = false) :
    s.CompleteGoal ok now i
      = JSONStorage.returnSave
          { s with Goals := s.Goals.insert i { goal with Completed := true, CompletedAt := now } }
          ok () := by
  unfold JSONStorage.GetGoalByID at h
  simp [JSONStorage.CompleteGoal, h, hc]

/-! ## Identifier assignment -/

theorem DeleteHabit_NextHabitID (s : JSONStorage) (ok : Bool) (id : Int) :
    (s.DeleteHabit ok id).store.NextHabitID = s.NextHabitID := by
  unfold JSONStorage.DeleteHabit
  cases s.Habits.lookup id <;> rfl

theorem DeleteGoal_NextGoalID (s : JSONStorage) (ok : Bool) (id : Int) :
    (s.DeleteGoal ok id).store.NextGoalID = s.NextGoalID := by
  unfold JSONStorage.DeleteGoal
  cases s.Goals.lookup id <;> rfl

theorem DeleteTrack_NextTrackID (s : JSONStorage) (ok : Bool) (id : Int) :
    (s.DeleteTrack ok id).store.NextTrackID = s.NextTrackID := by
  unfold JSONStorage.DeleteTrack
  cases s.HabitTracks.lookup id <;> rfl

theorem map_range_succ_shift (a : Int) (n : Nat) :
    (List.range (n + 1)).map (fun k : Nat => a + (k : Int))
      = a :: (List.range n).map (fun k : Nat => a + 1 + (k : Int)) := by
  rw [List.range_succ_eq_map, List.map_cons, List.map_map]
  simp only [Nat.cast_zero, add_zero, List.cons.injEq, true_and]
  apply List.map_congr_left
  intro k _
  simp only [Function.comp_apply, Nat.cast_succ]
  ring

theorem runHabitOps_ids (ops : List (EntityOp Habit)) : ∀ s : JSONStorage,
    (runHabitOps s ops).2
      = (List.range (createCount ops)).map (fun k : Nat => s.NextHabitID + (k : Int)) := by
  induction ops with
  | nil => intro s; rfl
  | cons op ops ih =>
    intro s
    cases op with
    | create ok e =>
      simp only [runHabitOps, createCount]
      rw [ih, map_range_succ_shift]
      rfl
    | delete ok id =>
      simp only [runHabitOps, createCount]
      rw [ih, DeleteHabit_NextHabitID]

theorem runGoalOps_ids (ops : List (EntityOp Goal)) : ∀ s : JSONStorage,
    (runGoalOps s ops).2
      = (List.range (createCount ops)).map (fun k : Nat => s.NextGoalID + (k : Int)) := by
  induction ops with
  | nil => intro s; rfl
  | cons op ops ih =>
    intro s
    cases op with
    | create ok e =>
      simp only [runGoalOps, createCount]
      rw [ih, map_range_succ_shift]
      rfl
    | delete ok id =>
      simp only [runGoalOps, createCount]
      rw [ih, DeleteGoal_NextGoalID]

theorem runTrackOps_ids (ops : List (EntityOp HabitTrack)) : ∀ s : JSONStorage,
    (runTrackOps s ops).2
      = (List.range (createCount ops)).map (fun k : Nat => s.NextTrackID + (k : Int)) := by
  induction ops with
  | nil => intro s; rfl
  | cons op ops ih =>
    intro s
    cases op with
    | create ok e =>
      simp only [runTrackOps, createCount]
      rw [ih, map_range_succ_shift]
      rfl
    | delete ok id =>
      simp only [runTrackOps, createCount]
      rw [ih, DeleteTrack_NextTrackID]

theorem map_range_one_add (n : Nat) :
    (List.range n).map (fun k : Nat => (1 : Int) + (k : Int))
      = (List.range n).map (fun k : Nat => (k : Int) + 1) :=
  List.map_congr_left (fun k _ => add_comm 1 (k : Int))

theorem nodup_map_range_add_one (n : Nat) :
    ((List.range n).map (fun k : Nat => (k : Int) + 1)).Nodup := by
  apply List.Nodup.map _ (List.nodup_range n)
  intro a b hab
  simpa using hab

/-- C1: from the empty store, in every run of creates and deletes on one
entity type (whatever the writes do), the identifiers handed out by the
creates are 1, 2, 3, ... in call order: the k-th create gets k. In particular
they are pairwise distinct, so no identifier is handed out twice, deleted or
not. -/
theorem create_assigns_consecutive_ids (hops : List (EntityOp Habit))
    (gops : List (EntityOp Goal)) (tops : List (EntityOp HabitTrack)) :
    ((runHabitOps NewJSONStorage hops).2
        = (List.range (createCount hops)).map (fun k : Nat => (k : Int) + 1)
      ∧ (runHabitOps NewJSONStorage hops).2.Nodup)
    ∧ ((runGoalOps NewJSONStorage gops).2
        = (List.range (createCount gops)).map (fun k : Nat => (k : Int) + 1)
      ∧ (runGoalOps NewJSONStorage gops).2.Nodup)
    ∧ ((runTrackOps NewJSONStorage tops).2
        = (List.range (createCount tops)).map (fun k : Nat => (k : Int) + 1)
      ∧ (runTrackOps NewJSONStorage tops).2.Nodup) := by
  have hh : (runHabitOps NewJSONStorage hops).2
      = (List.range (createCount hops)).map (fun k : Nat => (k : Int) + 1) := by
    rw [runHabitOps_ids]; exact map_range_one_add _
  have hg : (runGoalOps NewJSONStorage gops).2
      = (List.range (createCount gops)).map (fun k : Nat => (k : Int) + 1) := by
    rw [runGoalOps_ids]; exact map_range_one_add _
  have ht : (runTrackOps NewJSONStorage tops).2
      = (List.range (createCount tops)).map (fun k : Nat => (k : Int) + 1) := by
    rw [runTrackOps_ids]; exact map_range_one_add _
  refine ⟨⟨hh, ?_⟩, ⟨hg, ?_⟩, ⟨ht, ?_⟩⟩
  · rw [hh]; exact nodup_map_range_add_one _
  · rw [hg]; exact nodup_map_range_add_one _
  · rw [ht]; exact nodup_map_range_add_one _

/-! ## Create, then get -/

/-- C2: in every store, a create hands back the current counter as the
identifier, whatever identifier the caller's record carried, and a lookup
under that identifier then finds the caller's record with only the
identifier field replaced; no other field (the creation timestamp included)
is touched by the store. -/
theorem create_then_get (s : JSONStorage) (ok : Bool) (h : Habit) (g : Goal) (t : HabitTrack) :
    ((s.CreateHabit ok h).arg.ID = s.NextHabitID
      ∧ (s.CreateHabit ok h).store.GetHabitByID (s.CreateHabit ok h).arg.ID
          = some { h with ID := (s.CreateHabit ok h).arg.ID })
    ∧ ((s.CreateGoal ok g).arg.ID = s.NextGoalID
      ∧ (s.CreateGoal ok g).store.GetGoalByID (s.CreateGoal ok g).arg.ID
          = some { g with ID := (s.CreateGoal ok g).arg.ID })
    ∧ ((s.CreateTrack ok t).arg.ID = s.NextTrackID
      ∧ (s.CreateTrack ok t).store.GetTrackByID (s.CreateTrack ok t).arg.ID
          = some { t with ID := (s.CreateTrack ok t).arg.ID }) := by
  refine ⟨⟨rfl, ?_⟩, ⟨rfl, ?_⟩, ⟨rfl, ?_⟩⟩
  · simp [JSONStorage.CreateHabit, JSONStorage.returnSave, JSONStorage.GetHabitByID]
  · simp [JSONStorage.CreateGoal, JSONStorage.returnSave, JSONStorage.GetGoalByID]
  · simp [JSONStorage.CreateTrack, JSONStorage.returnSave, JSONStorage.GetTrackByID]

/-! ## Delete -/

theorem DeleteHabit_then_get (s : JSONStorage) (ok : Bool) (i : Int) :
    (s.DeleteHabit ok i).store.GetHabitByID i = none := by
  unfold JSONStorage.DeleteHabit JSONStorage.GetHabitByID
  cases h : s.Habits.lookup i with
  | none => simpa [JSONStorage.returnNil] using h
  | some v => simp [JSONStorage.returnSave]

theorem DeleteGoal_then_get (s : JSONStorage) (ok : Bool) (i : Int) :
    (s.DeleteGoal ok i).store.GetGoalByID i = none := by
  unfold JSONStorage.DeleteGoal JSONStorage.GetGoalByID
  cases h : s.Goals.lookup i with
  | none => simpa [JSONStorage.returnNil] using h
  | some v => simp [JSONStorage.returnSave]

theorem DeleteTrack_then_get (s : JSONStorage) (ok : Bool) (i : Int) :
    (s.DeleteTrack ok i).store.GetTrackByID i = none := by
  unfold JSONStorage.DeleteTrack JSONStorage.GetTrackByID
  cases h : s.HabitTracks.lookup i with
  | none => simpa [JSONStorage.returnNil] using h
  | some v => simp [JSONStorage.returnSave]

/-- C3: in every store, after a delete of identifier i a lookup of i finds
nothing; and when i is not in the map, the delete returns no error, calls no
write and leaves the store as it was, so the statistics and the lengths of
the three listings are what they were. -/
theorem delete_then_get_and_absent_noop (s : JSONStorage) (ok : Bool) (i : Int) (now : Time) :
    ((s.DeleteHabit ok i).store.GetHabitByID i = none
      ∧ (s.GetHabitByID i = none →
          (s.DeleteHabit ok i).err = false ∧ (s.DeleteHabit ok i).written = none
          ∧ (s.DeleteHabit ok i).store = s
          ∧ (s.DeleteHabit ok i).store.GetStatistics now = s.GetStatistics now
          ∧ (s.DeleteHabit ok i).store.GetAllHabits.length = s.GetAllHabits.length
          ∧ (s.DeleteHabit ok i).store.GetAllGoals.length = s.GetAllGoals.length
          ∧ (s.DeleteHabit ok i).store.GetAllTracks.length = s.GetAllTracks.length))
    ∧ ((s.DeleteGoal ok i).store.GetGoalByID i = none
      ∧ (s.GetGoalByID i = none →
          (s.DeleteGoal ok i).err = false ∧ (s.DeleteGoal ok i).written = none
          ∧ (s.DeleteGoal ok i).store = s
          ∧ (s.DeleteGoal ok i).store.GetStatistics now = s.GetStatistics now
          ∧ (s.DeleteGoal ok i).store.GetAllHabits.length = s.GetAllHabits.length
          ∧ (s.DeleteGoal ok i).store.GetAllGoals.length = s.GetAllGoals.length
          ∧ (s.DeleteGoal ok i).store.GetAllTracks.length = s.GetAllTracks.length))
    ∧ ((s.DeleteTrack ok i).store.GetTrackByID i = none
      ∧ (s.GetTrackByID i = none →
          (s.DeleteTrack ok i).err = false ∧ (s.DeleteTrack ok i).written = none
          ∧ (s.DeleteTrack ok i).store = s
          ∧ (s.DeleteTrack ok i).store.GetStatistics now = s.GetStatistics now
          ∧ (s.DeleteTrack ok i).store.GetAllHabits.length = s.GetAllHabits.length
          ∧ (s.DeleteTrack ok i).store.GetAllGoals.length = s.GetAllGoals.length
          ∧ (s.DeleteTrack ok i).store.GetAllTracks.length = s.GetAllTracks.length)) := by
  refine ⟨⟨DeleteHabit_then_get s ok i, fun h => ?_⟩, ⟨DeleteGoal_then_get s ok i, fun h => ?_⟩,
    ⟨DeleteTrack_then_get s ok i, fun h => ?_⟩⟩
  · rw [DeleteHabit_of_absent s ok i h]
    exact ⟨rfl, rfl, rfl, rfl, rfl, rfl, rfl⟩
  · rw [DeleteGoal_of_absent s ok i h]
    exact ⟨rfl, rfl, rfl, rfl, rfl, rfl, rfl⟩
  · rw [DeleteTrack_of_absent s ok i h]
    exact ⟨rfl, rfl, rfl, rfl, rfl, rfl, rfl⟩

/-- Witness for C3: in the sample store (one habit, one goal, one track, all
under identifier 1) identifier 2 is in none of the maps, and the three deletes
of 2 leave the store as it was. -/
theorem delete_then_get_and_absent_noop_witness :
    (sampleStore.GetHabitByID 2 = none ∧ (sampleStore.DeleteHabit false 2).store = sampleStore)
    ∧ (sampleStore.GetGoalByID 2 = none ∧ (sampleStore.DeleteGoal false 2).store = sampleStore)
    ∧ (sampleStore.GetTrackByID 2 = none
        ∧ (sampleStore.DeleteTrack false 2).store = sampleStore) :=
  ⟨⟨by decide,
      ((delete_then_get_and_absent_noop sampleStore false 2 sampleTime).1.2 (by decide)).2.2.1⟩,
    ⟨by decide,
      ((delete_then_get_and_absent_noop sampleStore false 2 sampleTime).2.1.2 (by decide)).2.2.1⟩,
    ⟨by decide,
      ((delete_then_get_and_absent_noop sampleStore false 2 sampleTime).2.2.2 (by decide)).2.2.1⟩⟩

/-! ## Sizes and key sets of maps after an insert -/

theorem length_insert_of_absent {V : Type} (m : IntMap V) (i : Int) (v : V)
    (h : m.lookup i = none) : (m.insert i v).entries.length = m.entries.length + 1 := by
  rw [AList.insert_entries_of_neg (AList.lookup_eq_none.mp h)]
  rfl

theorem length_insert_of_present {V : Type} (m : IntMap V) (i : Int) (v : V)
    (h : m.lookup i ≠ none) : (m.insert i v).entries.length = m.entries.length := by
  have hmem : i ∈ m.keys := by
    rw [← AList.mem_keys]
    by_contra hc
    exact h (AList.lookup_eq_none.mpr hc)
  have h1 : (m.insert i v).keys.length = m.keys.length := by
    rw [AList.keys_insert, List.length_cons, List.length_erase_of_mem hmem]
    have : 0 < m.keys.length := List.length_pos_of_mem hmem
    omega
  simpa [AList.keys, List.keys] using h1

theorem present_insert_of_present {V : Type} (m : IntMap V) (i j : Int) (v : V)
    (h : m.lookup i ≠ none) : (m.insert i v).lookup j ≠ none ↔ m.lookup j ≠ none := by
  by_cases hj : j = i
  · subst hj
    simp [h]
  · rw [AList.lookup_insert_ne hj]

/-! ## Completion -/

/-- The effect of `CompleteHabit` on a habit that is present and not completed,
in a store that holds no track under the current value of the track
counter. -/
theorem CompleteHabit_effect_of_free_key (s : JSONStorage) (ok : Bool) (now : Time) (i : Int) (habit : Habit)
    (hp : s.GetHabitByID i = some habit) (hc : habit.Completed = false)
    (hfresh : s.GetTrackByID s.NextTrackID = none) :
    (s.CompleteHabit ok now i).store.GetHabitByID i = some { habit with Completed := true }
    ∧ (∀ j, j ≠ i → (s.CompleteHabit ok now i).store.GetHabitByID j = s.GetHabitByID j)
    ∧ (s.CompleteHabit ok now i).store.GetTrackByID s.NextTrackID
        = some { ID := s.NextTrackID, HabitID := i, Date := now, Completed := true,
                 Notes := "Marked as completed via API" }
    ∧ (∀ j, j ≠ s.NextTrackID →
        (s.CompleteHabit ok now i).store.GetTrackByID j = s.GetTrackByID j)
    ∧ (s.CompleteHabit ok now i).store.GetAllTracks.length = s.GetAllTracks.length + 1
    ∧ (s.CompleteHabit ok now i).store.NextTrackID = s.NextTrackID + 1
    ∧ (s.CompleteHabit ok now i).store.Goals = s.Goals
    ∧ (s.CompleteHabit ok now i).store.NextHabitID = s.NextHabitID
    ∧ (s.CompleteHabit ok now i).store.NextGoalID = s.NextGoalID := by
  rw [CompleteHabit_of_open s ok now i habit hp hc]
  refine ⟨?_, ?_, ?_, ?_, ?_, rfl, rfl, rfl, rfl⟩
  · simp [JSONStorage.returnSave, JSONStorage.GetHabitByID]
  · intro j hj
    simp [JSONStorage.returnSave, JSONStorage.GetHabitByID, AList.lookup_insert_ne hj]
  · simp [JSONStorage.returnSave, JSONStorage.GetTrackByID]
  · intro j hj
    simp [JSONStorage.returnSave, JSONStorage.GetTrackByID, AList.lookup_insert_ne hj]
  · simp only [JSONStorage.returnSave, JSONStorage.GetAllTracks, List.length_map]
    exact length_insert_of_absent _ _ _ hfresh

theorem CompleteHabit_then_get (s : JSONStorage) (ok : Bool) (now : Time) (i : Int)
    (habit : Habit) (hp : s.GetHabitByID i = some habit) (hc : habit.Completed = false) :
    (s.CompleteHabit ok now i).store.GetHabitByID i = some { habit with Completed := true } := by
  rw [CompleteHabit_of_open s ok now i habit hp hc]
  simp [JSONStorage.returnSave, JSONStorage.GetHabitByID]

theorem CompleteHabit_tracks_length (s : JSONStorage) (ok : Bool) (now : Time) (i : Int)
    (habit : Habit) (hp : s.GetHabitByID i = some habit) (hc : habit.Completed = false)
    (hfresh : s.GetTrackByID s.NextTrackID = none) :
    (s.CompleteHabit ok now i).store.GetAllTracks.length = s.GetAllTracks.length + 1 := by
  rw [CompleteHabit_of_open s ok now i habit hp hc]
  simp only [JSONStorage.returnSave, JSONStorage.GetAllTracks, List.length_map]
  exact length_insert_of_absent _ _ _ hfresh

/-! ## Update -/

/-- C6: in every store, an update under an identifier that is not in the map
returns no error, calls no write and leaves the store as it was; an update
under an identifier that is in the map stores the replacement record with its
identifier field set to that identifier, whatever identifier the record
carried, and leaves the set of identifiers of the map, its size, every entry
under another identifier, the other two maps and the three counters as they
were. -/
theorem update_effect (s : JSONStorage) (ok : Bool) (i : Int) (r : Habit) (g : Goal)
    (t : HabitTrack) :
    ((s.GetHabitByID i = none →
        (s.UpdateHabit ok i r).err = false ∧ (s.UpdateHabit ok i r).written = none
        ∧ (s.UpdateHabit ok i r).store = s)
      ∧ (s.GetHabitByID i ≠ none →
        (s.UpdateHabit ok i r).store.GetHabitByID i = some { r with ID := i }
        ∧ (∀ j, (s.UpdateHabit ok i r).store.GetHabitByID j ≠ none ↔ s.GetHabitByID j ≠ none)
        ∧ (s.UpdateHabit ok i r).store.GetAllHabits.length = s.GetAllHabits.length
        ∧ (∀ j, j ≠ i → (s.UpdateHabit ok i r).store.GetHabitByID j = s.GetHabitByID j)
        ∧ (s.UpdateHabit ok i r).store.Goals = s.Goals
        ∧ (s.UpdateHabit ok i r).store.HabitTracks = s.HabitTracks
        ∧ (s.UpdateHabit ok i r).store.NextHabitID = s.NextHabitID
        ∧ (s.UpdateHabit ok i r).store.NextGoalID = s.NextGoalID
        ∧ (s.UpdateHabit ok i r).store.NextTrackID = s.NextTrackID))
    ∧ ((s.GetGoalByID i = none →
        (s.UpdateGoal ok i g).err = false ∧ (s.UpdateGoal ok i g).written = none
        ∧ (s.UpdateGoal ok i g).store = s)
      ∧ (s.GetGoalByID i ≠ none →
        (s.UpdateGoal ok i g).store.GetGoalByID i = some { g with ID := i }
        ∧ (∀ j, (s.UpdateGoal ok i g).store.GetGoalByID j ≠ none ↔ s.GetGoalByID j ≠ none)
        ∧ (s.UpdateGoal ok i g).store.GetAllGoals.length = s.GetAllGoals.length
        ∧ (∀ j, j ≠ i → (s.UpdateGoal ok i g).store.GetGoalByID j = s.GetGoalByID j)
        ∧ (s.UpdateGoal ok i g).store.Habits = s.Habits
        ∧ (s.UpdateGoal ok i g).store.HabitTracks = s.HabitTracks
        ∧ (s.UpdateGoal ok i g).store.NextHabitID = s.NextHabitID
        ∧ (s.UpdateGoal ok i g).store.NextGoalID = s.NextGoalID
        ∧ (s.UpdateGoal ok i g).store.NextTrackID = s.NextTrackID))
    ∧ ((s.GetTrackByID i = none →
        (s.UpdateTrack ok i t).err = false ∧ (s.UpdateTrack ok i t).written = none
        ∧ (s.UpdateTrack ok i t).store = s)
      ∧ (s.GetTrackByID i ≠ none →
        (s.UpdateTrack ok i t).store.GetTrackByID i = some { t with ID := i }
        ∧ (∀ j, (s.UpdateTrack ok i t).store.GetTrackByID j ≠ none ↔ s.GetTrackByID j ≠ none)
        ∧ (s.UpdateTrack ok i t).store.GetAllTracks.length = s.GetAllTracks.length
        ∧ (∀ j, j ≠ i → (s.UpdateTrack ok i t).store.GetTrackByID j = s.GetTrackByID j)
        ∧ (s.UpdateTrack ok i t).store.Habits = s.Habits
        ∧ (s.UpdateTrack ok i t).store.Goals = s.Goals
        ∧ (s.UpdateTrack ok i t).store.NextHabitID = s.NextHabitID
        ∧ (s.UpdateTrack ok i t).store.NextGoalID = s.NextGoalID
        ∧ (s.UpdateTrack ok i t).store.NextTrackID = s.NextTrackID)) := by
  refine ⟨⟨?_, ?_⟩, ⟨?_, ?_⟩, ⟨?_, ?_⟩⟩ <;> intro h
  · rw [UpdateHabit_of_absent s ok i r h]
    exact ⟨rfl, rfl, rfl⟩
  · rw [UpdateHabit_of_present s ok i r h]
    refine ⟨?_, ?_, ?_, ?_, rfl, rfl, rfl, rfl, rfl⟩
    · simp [JSONStorage.returnSave, JSONStorage.GetHabitByID]
    · intro j
      exact present_insert_of_present s.Habits i j _ h
    · simp only [JSONStorage.returnSave, JSONStorage.GetAllHabits, List.length_map]
      exact length_insert_of_present s.Habits i _ h
    · intro j hj
      simp [JSONStorage.returnSave, JSONStorage.GetHabitByID, AList.lookup_insert_ne hj]
  · rw [UpdateGoal_of_absent s ok i g h]
    exact ⟨rfl, rfl, rfl⟩
  · rw [UpdateGoal_of_present s ok i g h]
    refine ⟨?_, ?_, ?_, ?_, rfl, rfl, rfl, rfl, rfl⟩
    · simp [JSONStorage.returnSave, JSONStorage.GetGoalByID]
    · intro j
      exact present_insert_of_present s.Goals i j _ h
    · simp only [JSONStorage.returnSave, JSONStorage.GetAllGoals, List.length_map]
      exact length_insert_of_present s.Goals i _ h
    · intro j hj
      simp [JSONStorage.returnSave, JSONStorage.GetGoalByID, AList.lookup_insert_ne hj]
  · rw [UpdateTrack_of_absent s ok i t h]
    exact ⟨rfl, rfl, rfl⟩
  · rw [UpdateTrack_of_present s ok i t h]
    refine ⟨?_, ?_, ?_, ?_, rfl, rfl, rfl, rfl, rfl⟩
    · simp [JSONStorage.returnSave, JSONStorage.GetTrackByID]
    · intro j
      exact present_insert_of_present s.HabitTracks i j _ h
    · simp only [JSONStorage.returnSave, JSONStorage.GetAllTracks, List.length_map]
      exact length_insert_of_present s.HabitTracks i _ h
    · intro j hj
      simp [JSONStorage.returnSave, JSONStorage.GetTrackByID, AList.lookup_insert_ne hj]

/-- Witness for C6: in the sample store identifier 2 is in none of the maps
and the updates under 2 leave the store as it was; identifier 1 is in all
three and the updates under 1 store the replacement records, which carried
identifier 0, with identifier 1. -/
theorem update_effect_witness :
    ((sampleStore.UpdateHabit true 2 sampleHabit).store = sampleStore
      ∧ (sampleStore.UpdateHabit true 1 sampleHabit).store.GetHabitByID 1
          = some { sampleHabit with ID := 1 })
    ∧ ((sampleStore.UpdateGoal true 2 sampleGoal).store = sampleStore
      ∧ (sampleStore.UpdateGoal true 1 sampleGoal).store.GetGoalByID 1
          = some { sampleGoal with ID := 1 })
    ∧ ((sampleStore.UpdateTrack true 2 sampleTrack).store = sampleStore
      ∧ (sampleStore.UpdateTrack true 1 sampleTrack).store.GetTrackByID 1
          = some { sampleTrack with ID := 1 }) :=
  ⟨⟨((update_effect sampleStore true 2 sampleHabit sampleGoal sampleTrack).1.1 (by decide)).2.2,
      ((update_effect sampleStore true 1 sampleHabit sampleGoal sampleTrack).1.2 (by decide)).1⟩,
    ⟨((update_effect sampleStore true 2 sampleHabit sampleGoal sampleTrack).2.1.1 (by decide)).2.2,
      ((update_effect sampleStore true 1 sampleHabit sampleGoal sampleTrack).2.1.2 (by decide)).1⟩,
    ⟨((update_effect sampleStore true 2 sampleHabit sampleGoal sampleTrack).2.2.1 (by decide)).2.2,
      ((update_effect sampleStore true 1 sampleHabit sampleGoal sampleTrack).2.2.2
        (by decide)).1⟩⟩

/-! ## Statistics: the loops as counts -/

theorem foldl_habitStep_fst (l : List Habit) : ∀ acc : Int × StringMap CategoryStats,
    (l.foldl habitStep acc).1 = acc.1 + (l.countP (fun h => h.Completed) : Nat) := by
  induction l with
  | nil => intro acc; simp
  | cons h t ih =>
    intro acc
    rw [List.foldl_cons, ih]
    cases hc : h.Completed <;> simp [habitStep, hc, List.countP_cons]
    ring

theorem foldl_goalStep (now : Time) (l : List Goal) : ∀ acc : Int × Int,
    l.foldl (goalStep now) acc
      = (acc.1 + (l.countP (fun g => g.Completed) : Nat),
         acc.2 + (l.countP (fun g => !g.Completed && g.TargetDate.Before now) : Nat)) := by
  induction l with
  | nil => intro acc; simp
  | cons g t ih =>
    intro acc
    rw [List.foldl_cons, ih]
    cases hc : g.Completed <;> cases hb : g.TargetDate.Before now <;>
      simp [goalStep, hc, hb, List.countP_cons] <;> ring

theorem foldl_trackStep (today : Int × Int × Int) (l : List HabitTrack) : ∀ acc : Int,
    l.foldl (trackStep today) acc
      = acc + (l.countP (fun t => decide (t.Date.Format = today) && t.Completed) : Nat) := by
  induction l with
  | nil => intro acc; simp
  | cons t ts ih =>
    intro acc
    rw [List.foldl_cons, ih]
    by_cases hd : t.Date.Format = today <;> cases hc : t.Completed <;>
      simp [trackStep, hc, hd, List.countP_cons]
    ring

/-! ## Statistics: the category map -/

theorem categoryCounts_nil (b : CategoryStats) (c : String) : categoryCounts b [] c = b := by
  cases b
  simp [categoryCounts]

theorem habitStep_lookup_ne (acc : Int × StringMap CategoryStats) (h : Habit) (c : String)
    (hne : h.Category ≠ c) : (habitStep acc h).2.lookup c = acc.2.lookup c := by
  simp only [habitStep]
  exact AList.lookup_insert_ne (Ne.symm hne)

theorem habitStep_lookup_self (acc : Int × StringMap CategoryStats) (h : Habit) :
    (habitStep acc h).2.lookup h.Category
      = some (categoryCounts ((acc.2.lookup h.Category).getD CategoryStats.zero) [h]
          h.Category) := by
  simp only [habitStep, AList.lookup_insert]
  cases hc : h.Completed <;> simp [categoryCounts, hc, List.countP_cons]

theorem categoryCounts_cons_eq (b : CategoryStats) (h : Habit) (t : List Habit) :
    categoryCounts (categoryCounts b [h] h.Category) t h.Category
      = categoryCounts b (h :: t) h.Category := by
  simp only [categoryCounts, CategoryStats.mk.injEq, and_true]
  constructor
  · simp [List.countP_cons]; ring
  · cases hc : h.Completed <;> simp [hc, List.countP_cons]
    ring

theorem categoryCounts_cons_ne (b : CategoryStats) (h : Habit) (t : List Habit) (c : String)
    (hne : h.Category ≠ c) : categoryCounts b (h :: t) c = categoryCounts b t c := by
  simp [categoryCounts, hne, List.countP_cons]

theorem foldl_habitStep_lookup_some (l : List Habit) (c : String) :
    ∀ (acc : Int × StringMap CategoryStats) (b : CategoryStats), acc.2.lookup c = some b →
      (l.foldl habitStep acc).2.lookup c = some (categoryCounts b l c) := by
  induction l with
  | nil => intro acc b hb; simpa [categoryCounts_nil] using hb
  | cons h t ih =>
    intro acc b hb
    rw [List.foldl_cons]
    by_cases hcat : h.Category = c
    · subst hcat
      have h1 := habitStep_lookup_self acc h
      rw [hb] at h1
      rw [ih _ _ h1]
      simp only [Option.getD_some]
      rw [categoryCounts_cons_eq]
    · rw [ih (habitStep acc h) b (by rw [habitStep_lookup_ne acc h c hcat]; exact hb),
        categoryCounts_cons_ne b h t c hcat]

theorem foldl_habitStep_lookup_none (l : List Habit) (c : String) :
    ∀ (acc : Int × StringMap CategoryStats), acc.2.lookup c = none →
      (l.foldl habitStep acc).2.lookup c
        = if l.any (fun h => decide (h.Category = c)) then
            some (categoryCounts CategoryStats.zero l c)
          else none := by
  induction l with
  | nil => intro acc hb; simpa using hb
  | cons h t ih =>
    intro acc hb
    rw [List.foldl_cons]
    by_cases hcat : h.Category = c
    · subst hcat
      have h1 := habitStep_lookup_self acc h
      rw [hb] at h1
      rw [foldl_habitStep_lookup_some t _ _ _ h1]
      simp only [Option.getD_none]
      rw [categoryCounts_cons_eq]
      simp
    · rw [ih (habitStep acc h) (by rw [habitStep_lookup_ne acc h c hcat]; exact hb),
        categoryCounts_cons_ne _ h t c hcat]
      simp [hcat]

theorem foldl_categoryStep_lookup (c : String) :
    ∀ (l : List ((_ : String) × CategoryStats)), l.NodupKeys →
      ∀ m : StringMap CategoryStats,
        (l.foldl categoryStep m).lookup c
          = if c ∈ l.keys then (l.dlookup c).map CategoryStats.withPercentage
            else m.lookup c := by
  intro l
  induction l with
  | nil => intro _ m; simp
  | cons e t ih =>
    intro hnd m
    obtain ⟨k, v⟩ := e
    rw [List.foldl_cons]
    rw [List.nodupKeys_cons] at hnd
    rw [ih hnd.2]
    by_cases hc : c = k
    · subst hc
      simp [hnd.1, categoryStep, List.dlookup_cons_eq]
    · by_cases hct : c ∈ t.keys
      · simp [hct, hc, List.dlookup_cons_ne t ⟨k, v⟩ hc]
      · simp [hct, hc, categoryStep, AList.lookup_insert_ne hc]

theorem GetStatistics_Categories_lookup (s : JSONStorage) (now : Time) (c : String) :
    (s.GetStatistics now).Categories.lookup c
      = if s.GetAllHabits.any (fun h => decide (h.Category = c)) then
          some (categoryCounts CategoryStats.zero s.GetAllHabits c).withPercentage
        else none := by
  have h1 := foldl_habitStep_lookup_none s.GetAllHabits c (0, ∅) (AList.lookup_empty c)
  have h0 : (s.GetStatistics now).Categories.lookup c
      = if c ∈ (s.GetAllHabits.foldl habitStep (0, ∅)).2.entries.keys then
          ((s.GetAllHabits.foldl habitStep (0, ∅)).2.lookup c).map CategoryStats.withPercentage
        else (s.GetAllHabits.foldl habitStep (0, ∅)).2.lookup c :=
    foldl_categoryStep_lookup c _ (AList.nodupKeys _) _
  rw [h0]
  by_cases hany : s.GetAllHabits.any (fun h => decide (h.Category = c)) = true
  · rw [if_pos hany] at h1 ⊢
    have hmem : c ∈ (s.GetAllHabits.foldl habitStep (0, ∅)).2.entries.keys := by
      have : c ∈ (s.GetAllHabits.foldl habitStep (0, ∅)).2 := by
        rw [← AList.lookup_isSome, h1]; rfl
      exact this
    rw [if_pos hmem, h1]
    rfl
  · rw [if_neg hany] at h1 ⊢
    have hmem : c ∉ (s.GetAllHabits.foldl habitStep (0, ∅)).2.entries.keys :=
      AList.lookup_eq_none.mp h1
    rw [if_neg hmem, h1]

/-! ## float64: evaluating the rounding -/

theorem roundHalfEven_of_lt_half (x : ℚ) (m : ℤ) (h1 : (m : ℚ) ≤ x) (h2 : x < m + 1 / 2) :
    roundHalfEven x = m := by
  have hf : ⌊x⌋ = m := by
    rw [Int.floor_eq_iff]
    constructor
    · exact h1
    · linarith
  simp only [roundHalfEven, hf]
  rw [if_pos (by linarith)]

theorem roundHalfEven_intCast (n : ℤ) : roundHalfEven (n : ℚ) = n :=
  roundHalfEven_of_lt_half _ n le_rfl (by linarith)

theorem f64Round_of_binade (q : ℚ) (e : ℤ) (h1 : (2 : ℚ) ^ e ≤ |q|) (h2 : |q| < (2 : ℚ) ^ (e + 1)) :
    f64Round q = (roundHalfEven (q / (2 : ℚ) ^ (e - 52)) : ℚ) * (2 : ℚ) ^ (e - 52) := by
  have hpos : 0 < |q| := lt_of_lt_of_le (by positivity) h1
  have hq : q ≠ 0 := abs_pos.mp hpos
  have hlog : Int.log 2 |q| = e := by
    apply le_antisymm
    · have := (Int.lt_zpow_iff_log_lt (b := 2) (by norm_num) hpos).mp (by exact_mod_cast h2)
      omega
    · exact (Int.zpow_le_iff_le_log (b := 2) (by norm_num) hpos).mp (by exact_mod_cast h1)
  simp only [f64Round, if_neg hq, hlog]

theorem f64Round_of_binade_pos (q : ℚ) (e : ℤ) (h1 : (2 : ℚ) ^ e ≤ q) (h2 : q < (2 : ℚ) ^ (e + 1)) :
    f64Round q = (roundHalfEven (q / (2 : ℚ) ^ (e - 52)) : ℚ) * (2 : ℚ) ^ (e - 52) := by
  have hpos : 0 < q := lt_of_lt_of_le (by positivity) h1
  apply f64Round_of_binade <;> rwa [abs_of_pos hpos]

theorem f64Round_eq_self (q : ℚ) (e m : ℤ) (h1 : (2 : ℚ) ^ e ≤ q)
    (h2 : q < (2 : ℚ) ^ (e + 1)) (hm : q = (m : ℚ) * (2 : ℚ) ^ (e - 52)) : f64Round q = q := by
  rw [f64Round_of_binade_pos q e h1 h2]
  have hpos : (0 : ℚ) < (2 : ℚ) ^ (e - 52) := by positivity
  have : q / (2 : ℚ) ^ (e - 52) = (m : ℚ) := by
    rw [hm]; field_simp
  rw [this, roundHalfEven_intCast, ← hm]

theorem f64Round_eq_down (q : ℚ) (e m : ℤ) (h1 : (2 : ℚ) ^ e ≤ q)
    (h2 : q < (2 : ℚ) ^ (e + 1)) (hlo : (m : ℚ) ≤ q / (2 : ℚ) ^ (e - 52))
    (hhi : q / (2 : ℚ) ^ (e - 52) < m + 1 / 2) :
    f64Round q = (m : ℚ) * (2 : ℚ) ^ (e - 52) := by
  rw [f64Round_of_binade_pos q e h1 h2, roundHalfEven_of_lt_half _ m hlo hhi]

theorem f64OfInt_one : f64OfInt 1 = 1 := by
  unfold f64OfInt
  exact f64Round_eq_self _ 0 (2 ^ 52) (by norm_num) (by norm_num) (by norm_num)

theorem f64OfInt_two : f64OfInt 2 = 2 := by
  unfold f64OfInt
  exact f64Round_eq_self _ 1 (2 ^ 52) (by norm_num) (by norm_num) (by norm_num)

theorem f64OfInt_three : f64OfInt 3 = 3 := by
  unfold f64OfInt
  exact f64Round_eq_self _ 1 (3 * 2 ^ 51) (by norm_num) (by norm_num) (by norm_num)

theorem percentOf_one_two : percentOf 1 2 = 50 := by
  unfold percentOf f64Mul f64Div
  rw [f64OfInt_one, f64OfInt_two]
  rw [f64Round_eq_self (1 / 2) (-1) (2 ^ 52) (by norm_num) (by norm_num) (by norm_num)]
  rw [f64Round_eq_self (1 / 2 * 100) 5 (25 * 2 ^ 48) (by norm_num) (by norm_num) (by norm_num)]
  norm_num

theorem percentOf_one_three : percentOf 1 3 = 2345624805922133 / 70368744177664 := by
  unfold percentOf f64Mul f64Div
  rw [f64OfInt_one, f64OfInt_three]
  rw [f64Round_eq_down (1 / 3) (-2) 6004799503160661 (by norm_num) (by norm_num) (by norm_num)
    (by norm_num)]
  rw [f64Round_eq_down _ 5 4691249611844266 (by norm_num) (by norm_num) (by norm_num)
    (by norm_num)]
  norm_num

/-! ## float64: accuracy of the rounding -/

theorem zpow_two_split (e : ℤ) : (2 : ℚ) ^ e = (2 : ℚ) ^ (e - 52) * 2 ^ 52 := by
  have h52 : (2 : ℚ) ^ (52 : ℤ) = 2 ^ 52 := by norm_cast
  rw [← h52, ← zpow_add₀ (by norm_num : (2 : ℚ) ≠ 0)]
  congr 1
  ring

theorem roundHalfEven_close (x : ℚ) : |(roundHalfEven x : ℚ) - x| ≤ 1 / 2 := by
  have h1 : (⌊x⌋ : ℚ) ≤ x := Int.floor_le x
  have h2 : x < ⌊x⌋ + 1 := Int.lt_floor_add_one x
  unfold roundHalfEven
  simp only
  split_ifs with ha hb hc
  · rw [abs_le]; constructor <;> linarith
  · rw [abs_le]; push_cast; constructor <;> linarith
  · rw [abs_le]; constructor <;> linarith
  · rw [abs_le]; push_cast; constructor <;> linarith

theorem f64Round_close (q : ℚ) : |f64Round q - q| ≤ |q| / 2 ^ 53 := by
  by_cases hq : q = 0
  · simp [f64Round, hq]
  · have hpos : 0 < |q| := abs_pos.mpr hq
    simp only [f64Round, if_neg hq]
    set e := Int.log 2 |q| with he
    have hle : (2 : ℚ) ^ e ≤ |q| := by
      have := Int.zpow_log_le_self (b := 2) (by norm_num) hpos
      simpa [he] using this
    have hu : (0 : ℚ) < (2 : ℚ) ^ (e - 52) := by positivity
    have hsplit : (2 : ℚ) ^ e = (2 : ℚ) ^ (e - 52) * 2 ^ 52 := zpow_two_split e
    have hc := roundHalfEven_close (q / (2 : ℚ) ^ (e - 52))
    have heq : (roundHalfEven (q / (2 : ℚ) ^ (e - 52)) : ℚ) * (2 : ℚ) ^ (e - 52) - q
        = ((roundHalfEven (q / (2 : ℚ) ^ (e - 52)) : ℚ) - q / (2 : ℚ) ^ (e - 52))
            * (2 : ℚ) ^ (e - 52) := by
      field_simp
    rw [heq, abs_mul, abs_of_pos hu]
    calc |(roundHalfEven (q / (2 : ℚ) ^ (e - 52)) : ℚ) - q / (2 : ℚ) ^ (e - 52)|
            * (2 : ℚ) ^ (e - 52)
        ≤ 1 / 2 * (2 : ℚ) ^ (e - 52) := by
          exact mul_le_mul_of_nonneg_right hc hu.le
      _ = (2 : ℚ) ^ e / 2 ^ 53 := by rw [hsplit]; norm_num; ring
      _ ≤ |q| / 2 ^ 53 := by
          exact div_le_div_of_nonneg_right hle (by positivity)

theorem f64Round_bounds (q : ℚ) (hq : 0 ≤ q) :
    (1 - 1 / 2 ^ 53) * q ≤ f64Round q ∧ f64Round q ≤ (1 + 1 / 2 ^ 53) * q := by
  have h := f64Round_close q
  rw [abs_of_nonneg hq, abs_le] at h
  constructor <;> linarith [h.1, h.2]

theorem percentOf_close (c t : Int) (hc : 0 ≤ c) (hct : c ≤ t) (ht : 0 < t) :
    |percentOf c t - (c : ℚ) / (t : ℚ) * 100| ≤ 1 / 2 ^ 44 := by
  have hcq : (0 : ℚ) ≤ (c : ℚ) := by exact_mod_cast hc
  have htq : (0 : ℚ) < (t : ℚ) := by exact_mod_cast ht
  have hctq : (c : ℚ) ≤ (t : ℚ) := by exact_mod_cast hct
  obtain ⟨ha1, ha2⟩ := f64Round_bounds (c : ℚ) hcq
  obtain ⟨hb1, hb2⟩ := f64Round_bounds (t : ℚ) htq.le
  have hb : (0 : ℚ) < f64Round (t : ℚ) := by
    have : (0 : ℚ) < (1 - 1 / 2 ^ 53) * (t : ℚ) := mul_pos (by norm_num) htq
    linarith
  have ha : (0 : ℚ) ≤ f64Round (c : ℚ) := by
    have : (0 : ℚ) ≤ (1 - 1 / 2 ^ 53) * (c : ℚ) := mul_nonneg (by norm_num) hcq
    linarith
  have hq : (0 : ℚ) ≤ f64Round (c : ℚ) / f64Round (t : ℚ) := div_nonneg ha hb.le
  have hr0 : (0 : ℚ) ≤ (c : ℚ) / (t : ℚ) := div_nonneg hcq htq.le
  have hr1 : (c : ℚ) / (t : ℚ) ≤ 1 := (div_le_one htq).mpr hctq
  have hup : (1 - 1 / 2 ^ 53) * (f64Round (c : ℚ) / f64Round (t : ℚ))
      ≤ (1 + 1 / 2 ^ 53) * ((c : ℚ) / (t : ℚ)) := by
    rw [← mul_div_assoc, ← mul_div_assoc, div_le_div_iff₀ hb htq]
    have h1 : (1 - 1 / 2 ^ 53) * f64Round (c : ℚ) * (t : ℚ)
        ≤ (1 - 1 / 2 ^ 53) * ((1 + 1 / 2 ^ 53) * (c : ℚ)) * (t : ℚ) :=
      mul_le_mul_of_nonneg_right (mul_le_mul_of_nonneg_left ha2 (by norm_num)) htq.le
    have h2 : (1 + 1 / 2 ^ 53) * (c : ℚ) * ((1 - 1 / 2 ^ 53) * (t : ℚ))
        ≤ (1 + 1 / 2 ^ 53) * (c : ℚ) * f64Round (t : ℚ) :=
      mul_le_mul_of_nonneg_left hb1 (mul_nonneg (by norm_num) hcq)
    linarith
  have hlo : (1 - 1 / 2 ^ 53) * ((c : ℚ) / (t : ℚ))
      ≤ (1 + 1 / 2 ^ 53) * (f64Round (c : ℚ) / f64Round (t : ℚ)) := by
    rw [← mul_div_assoc, ← mul_div_assoc, div_le_div_iff₀ htq hb]
    have h1 : (1 - 1 / 2 ^ 53) * (c : ℚ) * f64Round (t : ℚ)
        ≤ (1 - 1 / 2 ^ 53) * (c : ℚ) * ((1 + 1 / 2 ^ 53) * (t : ℚ)) :=
      mul_le_mul_of_nonneg_left hb2 (mul_nonneg (by norm_num) hcq)
    have h2 : (1 + 1 / 2 ^ 53) * ((1 - 1 / 2 ^ 53) * (c : ℚ)) * (t : ℚ)
        ≤ (1 + 1 / 2 ^ 53) * f64Round (c : ℚ) * (t : ℚ) :=
      mul_le_mul_of_nonneg_right (mul_le_mul_of_nonneg_left ha1 (by norm_num)) htq.le
    linarith
  obtain ⟨hy1, hy2⟩ := f64Round_bounds (f64Round (c : ℚ) / f64Round (t : ℚ)) hq
  have hy : (0 : ℚ) ≤ f64Round (f64Round (c : ℚ) / f64Round (t : ℚ)) := by
    have : (0 : ℚ) ≤ (1 - 1 / 2 ^ 53) * (f64Round (c : ℚ) / f64Round (t : ℚ)) :=
      mul_nonneg (by norm_num) hq
    linarith
  obtain ⟨hz1, hz2⟩ := f64Round_bounds
    (f64Round (f64Round (c : ℚ) / f64Round (t : ℚ)) * 100) (mul_nonneg hy (by norm_num))
  unfold percentOf f64Mul f64Div f64OfInt
  rw [abs_le]
  constructor
  · linarith
  · linarith

/-! ## float64: order -/

theorem roundHalfEven_ge_floor (x : ℚ) : ⌊x⌋ ≤ roundHalfEven x := by
  unfold roundHalfEven
  simp only
  split_ifs <;> omega

theorem roundHalfEven_le_floor_succ (x : ℚ) : roundHalfEven x ≤ ⌊x⌋ + 1 := by
  unfold roundHalfEven
  simp only
  split_ifs <;> omega

theorem roundHalfEven_mono {a b : ℚ} (h : a ≤ b) : roundHalfEven a ≤ roundHalfEven b := by
  have hfl : ⌊a⌋ ≤ ⌊b⌋ := Int.floor_mono h
  rcases lt_or_eq_of_le hfl with hlt | heq
  · calc roundHalfEven a ≤ ⌊a⌋ + 1 := roundHalfEven_le_floor_succ a
      _ ≤ ⌊b⌋ := hlt
      _ ≤ roundHalfEven b := roundHalfEven_ge_floor b
  · unfold roundHalfEven
    simp only [heq]
    have hab : a - (⌊b⌋ : ℚ) ≤ b - (⌊b⌋ : ℚ) := by linarith
    split_ifs with h1 h2 h3 h4 h5 h6 h7 h8 h9 <;> first | omega | (exfalso; linarith)

theorem f64Round_binade_bounds (q : ℚ) (hq : 0 < q) :
    (2 : ℚ) ^ Int.log 2 q ≤ f64Round q ∧ f64Round q ≤ (2 : ℚ) ^ (Int.log 2 q + 1) := by
  have hne : q ≠ 0 := ne_of_gt hq
  have habs : |q| = q := abs_of_pos hq
  simp only [f64Round, if_neg hne, habs]
  set e := Int.log 2 q with he
  have hle : (2 : ℚ) ^ e ≤ q := by
    have := Int.zpow_log_le_self (b := 2) (by norm_num) hq
    simpa [he] using this
  have hlt : q < (2 : ℚ) ^ (e + 1) := by
    have := Int.lt_zpow_succ_log_self (b := 2) (by norm_num) q
    simpa [he] using this
  have hu : (0 : ℚ) < (2 : ℚ) ^ (e - 52) := by positivity
  have hs := zpow_two_split e
  have hs1 : (2 : ℚ) ^ (e + 1) = (2 : ℚ) ^ (e - 52) * 2 ^ 53 := by
    rw [zpow_add_one₀ (by norm_num : (2 : ℚ) ≠ 0), hs]; ring
  have h1 : ((2 ^ 52 : ℤ) : ℚ) ≤ q / (2 : ℚ) ^ (e - 52) := by
    rw [le_div_iff₀ hu]; push_cast; linarith
  have h2 : q / (2 : ℚ) ^ (e - 52) ≤ ((2 ^ 53 : ℤ) : ℚ) := by
    rw [div_le_iff₀ hu]; push_cast; linarith
  have r1 := roundHalfEven_mono h1
  have r2 := roundHalfEven_mono h2
  rw [roundHalfEven_intCast] at r1 r2
  have r1q : ((2 ^ 52 : ℤ) : ℚ) ≤ (roundHalfEven (q / (2 : ℚ) ^ (e - 52)) : ℚ) := by
    exact_mod_cast r1
  have r2q : (roundHalfEven (q / (2 : ℚ) ^ (e - 52)) : ℚ) ≤ ((2 ^ 53 : ℤ) : ℚ) := by
    exact_mod_cast r2
  push_cast at r1q r2q
  constructor
  · rw [hs, mul_comm ((2 : ℚ) ^ (e - 52))]
    exact mul_le_mul_of_nonneg_right r1q hu.le
  · rw [hs1, mul_comm ((2 : ℚ) ^ (e - 52))]
    exact mul_le_mul_of_nonneg_right r2q hu.le

theorem f64Round_mono {x y : ℚ} (hx : 0 < x) (hxy : x ≤ y) : f64Round x ≤ f64Round y := by
  have hy : 0 < y := lt_of_lt_of_le hx hxy
  have hlog : Int.log 2 x ≤ Int.log 2 y := Int.log_mono_right hx hxy
  rcases lt_or_eq_of_le hlog with hlt | heq
  · calc f64Round x ≤ (2 : ℚ) ^ (Int.log 2 x + 1) := (f64Round_binade_bounds x hx).2
      _ ≤ (2 : ℚ) ^ Int.log 2 y := zpow_le_zpow_right₀ (by norm_num) (by omega)
      _ ≤ f64Round y := (f64Round_binade_bounds y hy).1
  · simp only [f64Round, if_neg (ne_of_gt hx), if_neg (ne_of_gt hy), abs_of_pos hx,
      abs_of_pos hy, heq]
    have hu : (0 : ℚ) < (2 : ℚ) ^ (Int.log 2 y - 52) := by positivity
    apply mul_le_mul_of_nonneg_right _ hu.le
    have : x / (2 : ℚ) ^ (Int.log 2 y - 52) ≤ y / (2 : ℚ) ^ (Int.log 2 y - 52) :=
      div_le_div_of_nonneg_right hxy hu.le
    exact_mod_cast roundHalfEven_mono this

theorem f64Round_zero : f64Round 0 = 0 := by
  simp [f64Round]

theorem f64Round_nonneg {q : ℚ} (hq : 0 ≤ q) : 0 ≤ f64Round q := by
  rcases lt_or_eq_of_le hq with h | h
  · exact le_trans (by positivity) (f64Round_binade_bounds q h).1
  · rw [← h, f64Round_zero]

theorem f64Round_one : f64Round 1 = 1 :=
  f64Round_eq_self 1 0 (2 ^ 52) (by norm_num) (by norm_num) (by norm_num)

theorem f64Round_hundred : f64Round 100 = 100 :=
  f64Round_eq_self 100 6 (25 * 2 ^ 48) (by norm_num) (by norm_num) (by norm_num)

theorem f64Round_le_of_le {x b : ℚ} (hx : 0 ≤ x) (hxb : x ≤ b) (hb : f64Round b = b) :
    f64Round x ≤ b := by
  rcases lt_or_eq_of_le hx with h | h
  · rw [← hb]; exact f64Round_mono h hxb
  · rw [← h, f64Round_zero]; linarith

theorem percentOf_range (c t : Int) (hc : 0 ≤ c) (hct : c ≤ t) (ht : 0 < t) :
    0 ≤ percentOf c t ∧ percentOf c t ≤ 100 := by
  have hcq : (0 : ℚ) ≤ (c : ℚ) := by exact_mod_cast hc
  have htq : (0 : ℚ) < (t : ℚ) := by exact_mod_cast ht
  have hctq : (c : ℚ) ≤ (t : ℚ) := by exact_mod_cast hct
  have ha : 0 ≤ f64Round (c : ℚ) := f64Round_nonneg hcq
  have hb : 0 < f64Round (t : ℚ) :=
    lt_of_lt_of_le (by positivity) (f64Round_binade_bounds (t : ℚ) htq).1
  have hab : f64Round (c : ℚ) ≤ f64Round (t : ℚ) := by
    rcases lt_or_eq_of_le hcq with h | h
    · exact f64Round_mono h hctq
    · rw [← h, f64Round_zero]; exact hb.le
  have hq0 : 0 ≤ f64Round (c : ℚ) / f64Round (t : ℚ) := div_nonneg ha hb.le
  have hq1 : f64Round (c : ℚ) / f64Round (t : ℚ) ≤ 1 := (div_le_one hb).mpr hab
  have hy0 : 0 ≤ f64Round (f64Round (c : ℚ) / f64Round (t : ℚ)) := f64Round_nonneg hq0
  have hy1 : f64Round (f64Round (c : ℚ) / f64Round (t : ℚ)) ≤ 1 :=
    f64Round_le_of_le hq0 hq1 f64Round_one
  unfold percentOf f64Mul f64Div f64OfInt
  constructor
  · exact f64Round_nonneg (mul_nonneg hy0 (by norm_num))
  · exact f64Round_le_of_le (mul_nonneg hy0 (by norm_num)) (by linarith) f64Round_hundred

/-! ## Statistics: the fields of the snapshot -/

theorem GetStatistics_CompletedHabits (s : JSONStorage) (now : Time) :
    (s.GetStatistics now).CompletedHabits
      = (s.GetAllHabits.countP (fun h => h.Completed) : Nat) := by
  have h := foldl_habitStep_fst s.GetAllHabits (0, ∅)
  simp only [zero_add] at h
  exact h

theorem GetStatistics_CompletedGoals (s : JSONStorage) (now : Time) :
    (s.GetStatistics now).CompletedGoals
      = (s.GetAllGoals.countP (fun g => g.Completed) : Nat) := by
  have h := congrArg Prod.fst (foldl_goalStep now s.GetAllGoals (0, 0))
  simp only [zero_add] at h
  exact h

theorem GetStatistics_OverdueGoals (s : JSONStorage) (now : Time) :
    (s.GetStatistics now).OverdueGoals
      = (s.GetAllGoals.countP (fun g => !g.Completed && g.TargetDate.Before now) : Nat) := by
  have h := congrArg Prod.snd (foldl_goalStep now s.GetAllGoals (0, 0))
  simp only [zero_add] at h
  exact h

theorem GetStatistics_TodayCompleted (s : JSONStorage) (now : Time) :
    (s.GetStatistics now).TodayCompleted
      = (s.GetAllTracks.countP
          (fun t => decide (t.Date.Format = now.Format) && t.Completed) : Nat) := by
  have h := foldl_trackStep now.Format s.GetAllTracks 0
  simp only [zero_add] at h
  exact h

/-! ## Statistics: totals and percentages -/

/-- C7: in every store the snapshot of `GetStatistics` has TotalItems =
TotalHabits + TotalGoals and CompletedItems = CompletedHabits +
CompletedGoals, where the totals are the sizes of the habit and goal maps and
the completed counts are the numbers of their entries with the completed flag
set; each of the three percentages is 0 when its total is 0; and on a store
with three empty maps the snapshot is all zeros with an empty category map. -/
theorem statistics_totals (s : JSONStorage) (now : Time) :
    (s.GetStatistics now).TotalItems
        = (s.GetStatistics now).TotalHabits + (s.GetStatistics now).TotalGoals
    ∧ (s.GetStatistics now).CompletedItems
        = (s.GetStatistics now).CompletedHabits + (s.GetStatistics now).CompletedGoals
    ∧ (s.GetStatistics now).TotalHabits = (s.Habits.entries.length : Int)
    ∧ (s.GetStatistics now).TotalGoals = (s.Goals.entries.length : Int)
    ∧ (s.GetStatistics now).CompletedHabits
        = (s.GetAllHabits.countP (fun h => h.Completed) : Nat)
    ∧ (s.GetStatistics now).CompletedGoals
        = (s.GetAllGoals.countP (fun g => g.Completed) : Nat)
    ∧ ((s.GetStatistics now).TotalHabits = 0 → (s.GetStatistics now).HabitCompletionRate = 0)
    ∧ ((s.GetStatistics now).TotalGoals = 0 → (s.GetStatistics now).GoalCompletionRate = 0)
    ∧ ((s.GetStatistics now).TotalItems = 0 → (s.GetStatistics now).OverallProgress = 0)
    ∧ (s.Habits = ∅ → s.Goals = ∅ → s.HabitTracks = ∅ →
        s.GetStatistics now = Statistics.zero) := by
  refine ⟨rfl, rfl, rfl, rfl, GetStatistics_CompletedHabits s now,
    GetStatistics_CompletedGoals s now, ?_, ?_, ?_, ?_⟩
  · intro h
    have h0 : ¬ ((s.Habits.entries.length : Int) > 0) := by
      have : (s.Habits.entries.length : Int) = 0 := h
      omega
    simp only [JSONStorage.GetStatistics, if_neg h0]
  · intro h
    have h0 : ¬ ((s.Goals.entries.length : Int) > 0) := by
      have : (s.Goals.entries.length : Int) = 0 := h
      omega
    simp only [JSONStorage.GetStatistics, if_neg h0]
  · intro h
    have h0 : ¬ ((s.Habits.entries.length : Int) + (s.Goals.entries.length : Int) > 0) := by
      have : (s.Habits.entries.length : Int) + (s.Goals.entries.length : Int) = 0 := h
      omega
    simp only [JSONStorage.GetStatistics, if_neg h0]
  · intro hh hg ht
    simp only [JSONStorage.GetStatistics, hh, hg, ht]
    rfl

/-- Witness for C7: the store built when no file exists has no habits, and
its snapshot has the three percentages 0 and is the all-zero snapshot. -/
theorem statistics_totals_witness :
    (NewJSONStorage.GetStatistics sampleTime).TotalHabits = 0
    ∧ (NewJSONStorage.GetStatistics sampleTime).HabitCompletionRate = 0
    ∧ (NewJSONStorage.GetStatistics sampleTime).GoalCompletionRate = 0
    ∧ (NewJSONStorage.GetStatistics sampleTime).OverallProgress = 0
    ∧ NewJSONStorage.GetStatistics sampleTime = Statistics.zero :=
  ⟨by decide,
    (statistics_totals NewJSONStorage sampleTime).2.2.2.2.2.2.1 (by decide),
    (statistics_totals NewJSONStorage sampleTime).2.2.2.2.2.2.2.1 (by decide),
    (statistics_totals NewJSONStorage sampleTime).2.2.2.2.2.2.2.2.1 (by decide),
    (statistics_totals NewJSONStorage sampleTime).2.2.2.2.2.2.2.2.2 rfl rfl rfl⟩

/-! ## Statistics: the category breakdown -/

theorem any_category_iff (l : List Habit) (c : String) :
    l.any (fun h => decide (h.Category = c)) = true ↔ ∃ h ∈ l, h.Category = c := by
  simp [List.any_eq_true]

theorem countP_category_pos (l : List Habit) (c : String)
    (h : l.any (fun h => decide (h.Category = c)) = true) :
    0 < l.countP (fun h => decide (h.Category = c)) := by
  rw [List.countP_pos_iff]
  obtain ⟨x, hx, hc⟩ := (any_category_iff l c).mp h
  exact ⟨x, hx, by simpa using hc⟩

theorem Categories_lookup_some (s : JSONStorage) (now : Time) (c : String) (cs : CategoryStats)
    (h : (s.GetStatistics now).Categories.lookup c = some cs) :
    cs.Total = (s.GetAllHabits.countP (fun h => decide (h.Category = c)) : Nat)
    ∧ cs.Completed
        = (s.GetAllHabits.countP (fun h => decide (h.Category = c) && h.Completed) : Nat)
    ∧ 0 < cs.Total
    ∧ cs.Percentage = percentOf cs.Completed cs.Total := by
  rw [GetStatistics_Categories_lookup] at h
  by_cases hany : s.GetAllHabits.any (fun h => decide (h.Category = c)) = true
  · rw [if_pos hany] at h
    have hpos := countP_category_pos _ c hany
    have hT : (categoryCounts CategoryStats.zero s.GetAllHabits c).Total > 0 := by
      simp only [categoryCounts, CategoryStats.zero, zero_add]
      exact_mod_cast hpos
    have hcs : cs = (categoryCounts CategoryStats.zero s.GetAllHabits c).withPercentage :=
      (Option.some.inj h).symm
    unfold CategoryStats.withPercentage at hcs
    rw [if_pos hT] at hcs
    subst hcs
    simp only [categoryCounts, CategoryStats.zero, zero_add]
    exact ⟨trivial, trivial, by exact_mod_cast hpos, trivial⟩
  · rw [if_neg hany] at h
    exact absurd h (by simp)

/-- C8 (amended): in every store the keys of the Categories map are exactly
the category strings, compared as they are, of the stored habits; for a key c
the entry has Total the number of habits whose category is c, Completed the
number of those that are completed, and Percentage the float64 value of
`float64(Completed) / float64(Total) * 100`: the quotient rounded to the
nearest double, then its product with 100 rounded to the nearest double, which
lies within 2^-44 of the rational Completed / Total * 100. With two habits of
category c of which one is completed the entry is total 2, completed 1,
percentage 50. -/
theorem category_breakdown (s : JSONStorage) (now : Time) (c : String) :
    ((s.GetStatistics now).Categories.lookup c ≠ none ↔ ∃ h ∈ s.GetAllHabits, h.Category = c)
    ∧ (∀ cs, (s.GetStatistics now).Categories.lookup c = some cs →
        cs.Total = (s.GetAllHabits.countP (fun h => decide (h.Category = c)) : Nat)
        ∧ cs.Completed
            = (s.GetAllHabits.countP (fun h => decide (h.Category = c) && h.Completed) : Nat)
        ∧ cs.Percentage = f64Mul (f64Div (f64OfInt cs.Completed) (f64OfInt cs.Total)) 100
        ∧ |cs.Percentage - (cs.Completed : ℚ) / (cs.Total : ℚ) * 100| ≤ 1 / 2 ^ 44)
    ∧ (s.GetAllHabits.countP (fun h => decide (h.Category = c)) = 2 →
        s.GetAllHabits.countP (fun h => decide (h.Category = c) && h.Completed) = 1 →
        (s.GetStatistics now).Categories.lookup c
          = some { Total := 2, Completed := 1, Percentage := 50 }) := by
  refine ⟨?_, ?_, ?_⟩
  · rw [GetStatistics_Categories_lookup, ← any_category_iff]
    by_cases hany : s.GetAllHabits.any (fun h => decide (h.Category = c)) = true
    · simp [hany]
    · simp [hany]
  · intro cs h
    obtain ⟨h1, h2, h3, h4⟩ := Categories_lookup_some s now c cs h
    refine ⟨h1, h2, h4, ?_⟩
    have hle : cs.Completed ≤ cs.Total := by
      rw [h1, h2]
      exact_mod_cast List.countP_mono_left (fun x _ hx => by
        simp only [Bool.and_eq_true, decide_eq_true_eq] at hx ⊢
        exact hx.1)
    have h0 : 0 ≤ cs.Completed := by rw [h2]; exact Int.natCast_nonneg _
    rw [h4]
    exact percentOf_close cs.Completed cs.Total h0 hle h3
  · intro h2 h1
    have hany : s.GetAllHabits.any (fun h => decide (h.Category = c)) = true := by
      rw [any_category_iff]
      have hpos : 0 < s.GetAllHabits.countP (fun h => decide (h.Category = c)) := by omega
      obtain ⟨x, hx, hc⟩ := List.countP_pos_iff.mp hpos
      exact ⟨x, hx, by simpa using hc⟩
    rw [GetStatistics_Categories_lookup, if_pos hany]
    simp only [categoryCounts, CategoryStats.zero, zero_add, h2, h1,
      CategoryStats.withPercentage]
    norm_num
    exact percentOf_one_two

/-- Witness for C8 (amended): `fitnessStore` holds two habits of category
"fitness", one of them completed; the key "fitness" is present and its entry
is total 2, completed 1, percentage 50. -/
theorem category_breakdown_witness :
    (∃ h ∈ fitnessStore.GetAllHabits, h.Category = "fitness")
    ∧ (fitnessStore.GetStatistics sampleTime).Categories.lookup "fitness" ≠ none
    ∧ (fitnessStore.GetStatistics sampleTime).Categories.lookup "fitness"
        = some { Total := 2, Completed := 1, Percentage := 50 }
    ∧ (50 : ℚ) = f64Mul (f64Div (f64OfInt 1) (f64OfInt 2)) 100 :=
  ⟨by decide,
    (category_breakdown fitnessStore sampleTime "fitness").1.mpr (by decide),
    (category_breakdown fitnessStore sampleTime "fitness").2.2 (by decide) (by decide),
    ((category_breakdown fitnessStore sampleTime "fitness").2.1
      { Total := 2, Completed := 1, Percentage := 50 }
      ((category_breakdown fitnessStore sampleTime "fitness").2.2 (by decide) (by decide))).2.2.1⟩

/-- C8 (counterexample): with three habits of category "fitness" of which one
is completed, the entry is total 3, completed 1 and the percentage is the
double 2345624805922133 / 2^46 (33.33333333333333 when printed), which is not
the rational 1 / 3 * 100. -/
theorem category_percentage_not_exact :
    (thirdsStore.GetStatistics sampleTime).Categories.lookup "fitness"
      = some { Total := 3, Completed := 1, Percentage := 2345624805922133 / 70368744177664 }
    ∧ (2345624805922133 / 70368744177664 : ℚ) ≠ ((1 : Int) : ℚ) / ((3 : Int) : ℚ) * 100 := by
  constructor
  · rw [GetStatistics_Categories_lookup, if_pos (by decide)]
    have h3 : thirdsStore.GetAllHabits.countP (fun h => decide (h.Category = "fitness")) = 3 := by
      decide
    have h1 : thirdsStore.GetAllHabits.countP
        (fun h => decide (h.Category = "fitness") && h.Completed) = 1 := by
      decide
    simp only [categoryCounts, CategoryStats.zero, zero_add, h3, h1,
      CategoryStats.withPercentage]
    norm_num
    exact percentOf_one_three
  · norm_num

/-! ## Statistics: overdue goals and completions of today -/

/-- C9: in every store and for every value of the clock, OverdueGoals is the
number of goals that are not completed and whose target date is an instant
strictly before `now`; so a completed goal is not counted however old its
target date, and neither is a goal whose target date is `now` or later. After
one goal is created in a store without goals, OverdueGoals is 1 when that goal
is not completed and has its target date before `now`, and 0 otherwise. -/
theorem overdue_goals (s : JSONStorage) (now : Time) :
    (s.GetStatistics now).OverdueGoals
        = (s.GetAllGoals.countP
            (fun g => !g.Completed && decide (g.TargetDate.nanos < now.nanos)) : Nat)
    ∧ (∀ (ok : Bool) (g : Goal), s.Goals = ∅ →
        ((s.CreateGoal ok g).store.GetStatistics now).OverdueGoals
          = if g.Completed = false ∧ g.TargetDate.nanos < now.nanos then 1 else 0) := by
  constructor
  · exact GetStatistics_OverdueGoals s now
  · intro ok g he
    rw [GetStatistics_OverdueGoals]
    by_cases hb : g.TargetDate.nanos < now.nanos <;> cases hc : g.Completed <;>
      simp [JSONStorage.CreateGoal, JSONStorage.returnSave, JSONStorage.GetAllGoals, he,
        AList.insert_empty, hc, Time.Before, hb]

/-- Witness for C9: the sample goal (target date 1970-01-01, not completed)
created in the empty store is overdue on 2024-01-02. -/
theorem overdue_goals_witness :
    NewJSONStorage.Goals = ∅
    ∧ ((NewJSONStorage.CreateGoal true sampleGoal).store.GetStatistics sampleTime).OverdueGoals
        = 1 :=
  ⟨rfl, ((overdue_goals NewJSONStorage sampleTime).2 true sampleGoal rfl).trans (by decide)⟩

/-! ## The calendar: days and dates -/

theorem dayOfYear_range (a b c d e f g : Int) (h0 : 0 ≤ a) (h1 : a ≤ 146096)
    (hc : 0 ≤ a - 1460 * c ∧ a - 1460 * c ≤ 1459)
    (hd : 0 ≤ a - 36524 * d ∧ a - 36524 * d ≤ 36523)
    (he : 0 ≤ a - 146096 * e ∧ a - 146096 * e ≤ 146095)
    (hb : 0 ≤ a - c + d - e - 365 * b ∧ a - c + d - e - 365 * b ≤ 364)
    (hf : 0 ≤ b - 4 * f ∧ b - 4 * f ≤ 3)
    (hg : 0 ≤ b - 100 * g ∧ b - 100 * g ≤ 99) :
    0 ≤ a - (365 * b + f - g) ∧ a - (365 * b + f - g) ≤ 365 := by
  have hd4 : d = 0 ∨ d = 1 ∨ d = 2 ∨ d = 3 ∨ d = 4 := by omega
  have hg4 : g = 0 ∨ g = 1 ∨ g = 2 ∨ g = 3 := by omega
  have he2 : e = 0 ∨ e = 1 := by omega
  rcases hd4 with rfl | rfl | rfl | rfl | rfl <;> rcases hg4 with rfl | rfl | rfl | rfl <;>
    rcases he2 with rfl | rfl <;> omega

/-- The year of the era and the day of the year that `civilFromDays` computes
from the day of the era. -/
theorem yearOfEra_dayOfYear (doe : Int) (h0 : 0 ≤ doe) (h1 : doe ≤ 146096) :
    (0 ≤ (doe - doe / 1460 + doe / 36524 - doe / 146096) / 365
      ∧ (doe - doe / 1460 + doe / 36524 - doe / 146096) / 365 ≤ 399)
    ∧ 0 ≤ doe - (365 * ((doe - doe / 1460 + doe / 36524 - doe / 146096) / 365)
          + (doe - doe / 1460 + doe / 36524 - doe / 146096) / 365 / 4
          - (doe - doe / 1460 + doe / 36524 - doe / 146096) / 365 / 100)
    ∧ doe - (365 * ((doe - doe / 1460 + doe / 36524 - doe / 146096) / 365)
          + (doe - doe / 1460 + doe / 36524 - doe / 146096) / 365 / 4
          - (doe - doe / 1460 + doe / 36524 - doe / 146096) / 365 / 100) ≤ 365 := by
  refine ⟨by omega, ?_⟩
  exact dayOfYear_range doe ((doe - doe / 1460 + doe / 36524 - doe / 146096) / 365)
    (doe / 1460) (doe / 36524) (doe / 146096)
    ((doe - doe / 1460 + doe / 36524 - doe / 146096) / 365 / 4)
    ((doe - doe / 1460 + doe / 36524 - doe / 146096) / 365 / 100)
    h0 h1 (by omega) (by omega) (by omega) (by omega) (by omega) (by omega)

theorem civil_core (z era doe yoe doy mp : Int)
    (hdoe : doe = z + 719468 - era * 146097)
    (hyoe : 0 ≤ yoe ∧ yoe ≤ 399)
    (hdoy : doy = doe - (365 * yoe + yoe / 4 - yoe / 100))
    (hmp : 0 ≤ mp ∧ mp ≤ 11) :
    daysFromCivil
      (if (if mp < 10 then mp + 3 else mp - 9) ≤ 2 then yoe + era * 400 + 1
        else yoe + era * 400)
      (if mp < 10 then mp + 3 else mp - 9)
      (doy - (153 * mp + 2) / 5 + 1) = z := by
  have hm : (if (if mp < 10 then mp + 3 else mp - 9) > 2
      then (if mp < 10 then mp + 3 else mp - 9) - 3
      else (if mp < 10 then mp + 3 else mp - 9) + 9) = mp := by
    split_ifs <;> omega
  have hy : (if (if mp < 10 then mp + 3 else mp - 9) ≤ 2
      then (if (if mp < 10 then mp + 3 else mp - 9) ≤ 2 then yoe + era * 400 + 1
        else yoe + era * 400) - 1
      else (if (if mp < 10 then mp + 3 else mp - 9) ≤ 2 then yoe + era * 400 + 1
        else yoe + era * 400)) = yoe + era * 400 := by
    split_ifs <;> omega
  have he : (yoe + era * 400) / 400 = era := by omega
  simp only [daysFromCivil, hm, hy, he]
  have hcancel : yoe + era * 400 - era * 400 = yoe := by ring
  rw [hcancel]
  omega

theorem daysFromCivil_civilFromDays (z : Int) :
    daysFromCivil (civilFromDays z).1 (civilFromDays z).2.1 (civilFromDays z).2.2 = z := by
  have hdoe : 0 ≤ z + 719468 - (z + 719468) / 146097 * 146097
      ∧ z + 719468 - (z + 719468) / 146097 * 146097 ≤ 146096 := by omega
  obtain ⟨hy, hd0, hd1⟩ := yearOfEra_dayOfYear _ hdoe.1 hdoe.2
  simp only [civilFromDays]
  exact civil_core z _ _ _ _ _ rfl hy rfl (by omega)

theorem civilFromDays_injective {a b : Int} (h : civilFromDays a = civilFromDays b) : a = b := by
  rw [← daysFromCivil_civilFromDays a, ← daysFromCivil_civilFromDays b, h]

theorem Format_eq_iff (t u : Time) :
    t.Format = u.Format
      ↔ (t.nanos / 1000000000 + t.offset) / 86400 = (u.nanos / 1000000000 + u.offset) / 86400 := by
  constructor
  · intro h
    exact civilFromDays_injective h
  · intro h
    unfold Time.Format Time.dayNumber
    rw [h]

theorem civilFromDays_month_day (z : Int) :
    (1 ≤ (civilFromDays z).2.1 ∧ (civilFromDays z).2.1 ≤ 12)
    ∧ (1 ≤ (civilFromDays z).2.2 ∧ (civilFromDays z).2.2 ≤ 31) := by
  have hdoe : 0 ≤ z + 719468 - (z + 719468) / 146097 * 146097
      ∧ z + 719468 - (z + 719468) / 146097 * 146097 ≤ 146096 := by omega
  obtain ⟨_, hd0, hd1⟩ := yearOfEra_dayOfYear _ hdoe.1 hdoe.2
  simp only [civilFromDays]
  constructor
  · split_ifs <;> omega
  · omega

/-! ## Statistics: completions of today -/

/-- C10: in every store and for every value of the clock, TodayCompleted is
the number of tracks whose completed flag is set and whose date prints, with
the layout "2006-01-02", the same year, month and day as `now` does, each
value read in its own location. Two values print the same date exactly when
their instants, shifted by the offsets of their locations, fall on the same
day counted from 1970-01-01; so a track that is not completed, or whose date
falls on another civil day than `now`, is not counted, whatever the time of
day. -/
theorem today_completed (s : JSONStorage) (now : Time) :
    (s.GetStatistics now).TodayCompleted
        = (s.GetAllTracks.countP
            (fun t => decide (t.Date.Format = now.Format) && t.Completed) : Nat)
    ∧ (∀ t u : Time, t.Format = u.Format
        ↔ (t.nanos / 1000000000 + t.offset) / 86400
            = (u.nanos / 1000000000 + u.offset) / 86400)
    ∧ (s.GetStatistics now).TodayCompleted
        = (s.GetAllTracks.countP
            (fun t => decide ((t.Date.nanos / 1000000000 + t.Date.offset) / 86400
                = (now.nanos / 1000000000 + now.offset) / 86400) && t.Completed) : Nat)
    ∧ (∀ t : Time, daysFromCivil t.Format.1 t.Format.2.1 t.Format.2.2
          = (t.nanos / 1000000000 + t.offset) / 86400
        ∧ 1 ≤ t.Format.2.1 ∧ t.Format.2.1 ≤ 12 ∧ 1 ≤ t.Format.2.2 ∧ t.Format.2.2 ≤ 31) := by
  refine ⟨GetStatistics_TodayCompleted s now, Format_eq_iff, ?_, ?_⟩
  · rw [GetStatistics_TodayCompleted]
    congr 1
    apply List.countP_congr
    intro t _
    simp only [Bool.and_eq_true, decide_eq_true_eq, Format_eq_iff]
  · intro t
    obtain ⟨⟨m1, m2⟩, d1, d2⟩ := civilFromDays_month_day t.dayNumber
    exact ⟨daysFromCivil_civilFromDays t.dayNumber, m1, m2, d1, d2⟩

/-- Witness for C10: of the five tracks of `todayStore`, with the clock at
22:59:59Z of 2024-01-02 read one hour east, two are counted: the one completed
at 00:00:00Z of that day and the one completed at 23:30:00Z of the day before
read one hour east. The completed track of the day after, the track that is
not completed, and the completed track at the very instant of the clock but
read two hours east, where the day after has begun, are not counted. -/
theorem today_completed_witness :
    (todayStore.GetStatistics sampleEvening).TodayCompleted = 2
    ∧ todayStore.GetAllTracks.length = 5
    ∧ sampleEvening.Format = (2024, 1, 2)
    ∧ (Time.mk 1704153600000000000 0).Format = sampleEvening.Format
    ∧ (Time.mk 1704151800000000000 3600).Format = sampleEvening.Format
    ∧ (Time.mk 1704240000000000000 0).Format = (2024, 1, 3)
    ∧ (Time.mk 1704236399000000000 7200).Format = (2024, 1, 3)
    ∧ (Time.mk 1704236399000000000 7200).nanos = sampleEvening.nanos :=
  ⟨(today_completed todayStore sampleEvening).1.trans (by decide), by decide, by decide,
    ((today_completed todayStore sampleEvening).2.1 (Time.mk 1704153600000000000 0)
      sampleEvening).mpr (by decide),
    ((today_completed todayStore sampleEvening).2.1 (Time.mk 1704151800000000000 3600)
      sampleEvening).mpr (by decide),
    by decide, by decide, by decide⟩

/-! ## Persistence: serialise, then one write -/

theorem returnSave_err {α : Type} (s : JSONStorage) (ok : Bool) (a : α) :
    ((s.returnSave ok a).err = true ↔ (s.marshals = false ∨ ok = false)) := by
  cases ok <;> cases hm : s.marshals <;> simp [JSONStorage.returnSave, JSONStorage.save, hm]

theorem returnSave_written {α : Type} (s : JSONStorage) (ok : Bool) (a : α) :
    (s.returnSave ok a).written = (if s.marshals then some s.document else none) := by
  cases hm : s.marshals <;> simp [JSONStorage.returnSave, JSONStorage.save, hm]

theorem rfc3339_of_whole_minutes (t : Time) (h : t.offset % 60 = 0) : t.rfc3339 = t := by
  have hz : t.zoneMinutes * 60 = t.offset := by
    unfold Time.zoneMinutes
    rw [Int.tdiv_eq_ediv_of_dvd (Int.dvd_of_emod_eq_zero h)]
    omega
  cases t with
  | mk n o =>
    simp only [Time.rfc3339, Time.mk.injEq]
    simp only at hz
    constructor
    · rw [hz]; ring
    · exact hz

theorem mapValues_lookup {V : Type} (f : V → V) (m : IntMap V) (k : Int) :
    (IntMap.mapValues f m).lookup k = (m.lookup k).map f := by
  obtain ⟨l, hl⟩ := m
  simp only [IntMap.mapValues, AList.lookup]
  clear hl
  induction l with
  | nil => rfl
  | cons e t ih =>
    obtain ⟨a, b⟩ := e
    by_cases hk : k = a
    · subst hk
      simp [List.dlookup_cons_eq]
    · simp only [List.map_cons]
      rw [List.dlookup_cons_ne _ _ hk, List.dlookup_cons_ne _ _ hk]
      exact ih

theorem mapValues_eq_self {V : Type} (f : V → V) (m : IntMap V)
    (h : ∀ e ∈ m.entries, f e.2 = e.2) : IntMap.mapValues f m = m := by
  apply AList.ext
  simp only [IntMap.mapValues]
  have : m.entries.map (fun e => (⟨e.1, f e.2⟩ : (_ : Int) × V)) = m.entries.map id := by
    apply List.map_congr_left
    intro e he
    obtain ⟨a, b⟩ := e
    simp only [id]
    have := h ⟨a, b⟩ he
    simp only at this
    rw [this]
  rw [this, List.map_id]

theorem document_eq_self (s : JSONStorage) (h : ∀ t ∈ s.times, t.offset % 60 = 0) :
    s.document = s := by
  have hh : IntMap.mapValues Habit.document s.Habits = s.Habits := by
    apply mapValues_eq_self
    intro e he
    have h1 : e.2.CreatedAt ∈ s.times := by
      simp only [JSONStorage.times, List.mem_append, List.mem_flatten, List.mem_map]
      exact Or.inl (Or.inl ⟨e.2.times, ⟨e, he, rfl⟩, by simp [Habit.times]⟩)
    simp only [Habit.document, rfc3339_of_whole_minutes _ (h _ h1)]
  have hg : IntMap.mapValues Goal.document s.Goals = s.Goals := by
    apply mapValues_eq_self
    intro e he
    have hmem : ∀ t ∈ e.2.times, t ∈ s.times := by
      intro t ht
      simp only [JSONStorage.times, List.mem_append, List.mem_flatten, List.mem_map]
      exact Or.inl (Or.inr ⟨e.2.times, ⟨e, he, rfl⟩, ht⟩)
    have h1 := h _ (hmem e.2.TargetDate (by simp [Goal.times]))
    have h2 := h _ (hmem e.2.CreatedAt (by simp [Goal.times]))
    have h3 := h _ (hmem e.2.CompletedAt (by simp [Goal.times]))
    simp only [Goal.document, rfc3339_of_whole_minutes _ h1, rfc3339_of_whole_minutes _ h2,
      rfc3339_of_whole_minutes _ h3]
  have ht : IntMap.mapValues HabitTrack.document s.HabitTracks = s.HabitTracks := by
    apply mapValues_eq_self
    intro e he
    have h1 : e.2.Date ∈ s.times := by
      simp only [JSONStorage.times, List.mem_append, List.mem_flatten, List.mem_map]
      exact Or.inr ⟨e.2.times, ⟨e, he, rfl⟩, by simp [HabitTrack.times]⟩
    simp only [HabitTrack.document, rfc3339_of_whole_minutes _ (h _ h1)]
  simp only [JSONStorage.document, hh, hg, ht]

theorem marshals_iff (s : JSONStorage) :
    s.marshals = true
      ↔ ∀ t ∈ s.times, (0 ≤ t.Format.1 ∧ t.Format.1 ≤ 9999)
          ∧ -1440 < t.zoneMinutes ∧ t.zoneMinutes < 1440 := by
  simp only [JSONStorage.marshals, List.all_eq_true, Time.marshals, Bool.and_eq_true,
    decide_eq_true_eq, and_assoc]

/-- C11 (counterexample): `CreateGoal` of a goal whose target date is
10000-01-01T00:00:00Z, in the empty store and with a write that would succeed,
returns an error and hands nothing to the write, while the goal is stored
under 1: the error does not come from the write and no write is attempted.
And `CreateTrack` of a track whose date has a zone offset of 90 seconds hands
to the write a document in which that date has offset 60 and an instant 30
seconds later, which is not the date in the store. -/
theorem unmarshalable_goal_no_write :
    farGoal.TargetDate.Format = (10000, 1, 1)
    ∧ (NewJSONStorage.CreateGoal true farGoal).err = true
    ∧ (NewJSONStorage.CreateGoal true farGoal).written = none
    ∧ (NewJSONStorage.CreateGoal true farGoal).store.GetGoalByID 1
        = some { farGoal with ID := 1 }
    ∧ (NewJSONStorage.CreateTrack true oddTrack).err = false
    ∧ (NewJSONStorage.CreateTrack true oddTrack).store.GetTrackByID 1
        = some { oddTrack with ID := 1 }
    ∧ (NewJSONStorage.CreateTrack true oddTrack).written.map (fun d => d.GetTrackByID 1)
        = some (some { oddTrack with
            ID := 1, Date := { nanos := 1704153630000000000, offset := 60 } }) := by
  decide

/-- C11 (amended): a call that saves first serialises the store it leaves and
then writes. Serialising succeeds exactly when every time in that store
marshals: its year, in its own location, lies in 0..9999 and its zone offset
is under 24 hours. Every create, every update or delete of an identifier that
is in the map and every completion of an entity that is present and not
completed returns an error exactly when serialising fails or the write fails;
when serialising succeeds one document is handed to the write, after the
mutation, and it is the document of the whole store the call leaves: the three
counters and, under the same keys, every record as it is decoded from its
text; when serialising fails no write is attempted. Whatever happens, the
store the call leaves holds the mutation. The document equals the store when
every zone offset in it is a whole number of minutes. -/
theorem write_after_mutation (s : JSONStorage) (ok : Bool) (now : Time) (i : Int)
    (h : Habit) (g : Goal) (t : HabitTrack) :
    (((s.CreateHabit ok h).err = true
          ↔ ((s.CreateHabit ok h).store.marshals = false ∨ ok = false))
        ∧ (s.CreateHabit ok h).written
            = (if (s.CreateHabit ok h).store.marshals then some (s.CreateHabit ok h).store.document else none)
        ∧ (s.CreateHabit ok h).store.GetHabitByID s.NextHabitID = some { h with ID := s.NextHabitID }
        ∧ (s.CreateHabit ok h).store.NextHabitID = s.NextHabitID + 1)
    ∧ (((s.CreateGoal ok g).err = true
          ↔ ((s.CreateGoal ok g).store.marshals = false ∨ ok = false))
        ∧ (s.CreateGoal ok g).written
            = (if (s.CreateGoal ok g).store.marshals then some (s.CreateGoal ok g).store.document else none)
        ∧ (s.CreateGoal ok g).store.GetGoalByID s.NextGoalID = some { g with ID := s.NextGoalID }
        ∧ (s.CreateGoal ok g).store.NextGoalID = s.NextGoalID + 1)
    ∧ (((s.CreateTrack ok t).err = true
          ↔ ((s.CreateTrack ok t).store.marshals = false ∨ ok = false))
        ∧ (s.CreateTrack ok t).written
            = (if (s.CreateTrack ok t).store.marshals then some (s.CreateTrack ok t).store.document else none)
        ∧ (s.CreateTrack ok t).store.GetTrackByID s.NextTrackID = some { t with ID := s.NextTrackID }
        ∧ (s.CreateTrack ok t).store.NextTrackID = s.NextTrackID + 1)
    ∧ (s.GetHabitByID i ≠ none →
        (((s.UpdateHabit ok i h).err = true
          ↔ ((s.UpdateHabit ok i h).store.marshals = false ∨ ok = false))
        ∧ (s.UpdateHabit ok i h).written
            = (if (s.UpdateHabit ok i h).store.marshals then some (s.UpdateHabit ok i h).store.document else none)
        ∧ (s.UpdateHabit ok i h).store.GetHabitByID i = some { h with ID := i }))
    ∧ (s.GetGoalByID i ≠ none →
        (((s.UpdateGoal ok i g).err = true
          ↔ ((s.UpdateGoal ok i g).store.marshals = false ∨ ok = false))
        ∧ (s.UpdateGoal ok i g).written
            = (if (s.UpdateGoal ok i g).store.marshals then some (s.UpdateGoal ok i g).store.document else none)
        ∧ (s.UpdateGoal ok i g).store.GetGoalByID i = some { g with ID := i }))
    ∧ (s.GetTrackByID i ≠ none →
        (((s.UpdateTrack ok i t).err = true
          ↔ ((s.UpdateTrack ok i t).store.marshals = false ∨ ok = false))
        ∧ (s.UpdateTrack ok i t).written
            = (if (s.UpdateTrack ok i t).store.marshals then some (s.UpdateTrack ok i t).store.document else none)
        ∧ (s.UpdateTrack ok i t).store.GetTrackByID i = some { t with ID := i }))
    ∧ (s.GetHabitByID i ≠ none →
        (((s.DeleteHabit ok i).err = true
          ↔ ((s.DeleteHabit ok i).store.marshals = false ∨ ok = false))
        ∧ (s.DeleteHabit ok i).written
            = (if (s.DeleteHabit ok i).store.marshals then some (s.DeleteHabit ok i).store.document else none)
        ∧ (s.DeleteHabit ok i).store.GetHabitByID i = none))
    ∧ (s.GetGoalByID i ≠ none →
        (((s.DeleteGoal ok i).err = true
          ↔ ((s.DeleteGoal ok i).store.marshals = false ∨ ok = false))
        ∧ (s.DeleteGoal ok i).written
            = (if (s.DeleteGoal ok i).store.marshals then some (s.DeleteGoal ok i).store.document else none)
        ∧ (s.DeleteGoal ok i).store.GetGoalByID i = none))
    ∧ (s.GetTrackByID i ≠ none →
        (((s.DeleteTrack ok i).err = true
          ↔ ((s.DeleteTrack ok i).store.marshals = false ∨ ok = false))
        ∧ (s.DeleteTrack ok i).written
            = (if (s.DeleteTrack ok i).store.marshals then some (s.DeleteTrack ok i).store.document else none)
        ∧ (s.DeleteTrack ok i).store.GetTrackByID i = none))
    ∧ (∀ habit, s.GetHabitByID i = some habit → habit.Completed = false →
        (((s.CompleteHabit ok now i).err = true
          ↔ ((s.CompleteHabit ok now i).store.marshals = false ∨ ok = false))
        ∧ (s.CompleteHabit ok now i).written
            = (if (s.CompleteHabit ok now i).store.marshals then some (s.CompleteHabit ok now i).store.document else none)
        ∧ (s.CompleteHabit ok now i).store.GetHabitByID i = some { habit with Completed := true }
        ∧ (s.CompleteHabit ok now i).store.GetTrackByID s.NextTrackID
            = some { ID := s.NextTrackID, HabitID := i, Date := now, Completed := true,
                     Notes := "Marked as completed via API" }
        ∧ (s.CompleteHabit ok now i).store.NextTrackID = s.NextTrackID + 1))
    ∧ (∀ goal, s.GetGoalByID i = some goal → goal.Completed = false →
        (((s.CompleteGoal ok now i).err = true
          ↔ ((s.CompleteGoal ok now i).store.marshals = false ∨ ok = false))
        ∧ (s.CompleteGoal ok now i).written
            = (if (s.CompleteGoal ok now i).store.marshals then some (s.CompleteGoal ok now i).store.document else none)
        ∧ (s.CompleteGoal ok now i).store.GetGoalByID i
            = some { goal with Completed := true, CompletedAt := now }))
    ∧ (∀ st : JSONStorage,
        (st.document.NextHabitID = st.NextHabitID ∧ st.document.NextGoalID = st.NextGoalID
          ∧ st.document.NextTrackID = st.NextTrackID)
        ∧ (∀ k, st.document.GetHabitByID k = (st.GetHabitByID k).map Habit.document)
        ∧ (∀ k, st.document.GetGoalByID k = (st.GetGoalByID k).map Goal.document)
        ∧ (∀ k, st.document.GetTrackByID k = (st.GetTrackByID k).map HabitTrack.document)
        ∧ ((∀ t ∈ st.times, t.offset % 60 = 0) → st.document = st)
        ∧ (st.marshals = true
            ↔ ∀ t ∈ st.times, (0 ≤ t.Format.1 ∧ t.Format.1 ≤ 9999)
                ∧ -1440 < t.zoneMinutes ∧ t.zoneMinutes < 1440)) := by
  refine ⟨?_, ?_, ?_, ?_, ?_, ?_, ?_, ?_, ?_, ?_, ?_, ?_⟩
  · refine ⟨returnSave_err _ ok _, returnSave_written _ ok _, ?_, rfl⟩
    simp [JSONStorage.CreateHabit, JSONStorage.returnSave, JSONStorage.GetHabitByID]
  · refine ⟨returnSave_err _ ok _, returnSave_written _ ok _, ?_, rfl⟩
    simp [JSONStorage.CreateGoal, JSONStorage.returnSave, JSONStorage.GetGoalByID]
  · refine ⟨returnSave_err _ ok _, returnSave_written _ ok _, ?_, rfl⟩
    simp [JSONStorage.CreateTrack, JSONStorage.returnSave, JSONStorage.GetTrackByID]
  · intro hp
    rw [UpdateHabit_of_present s ok i h hp]
    refine ⟨returnSave_err _ ok _, returnSave_written _ ok _, ?_⟩
    simp [JSONStorage.returnSave, JSONStorage.GetHabitByID]
  · intro hp
    rw [UpdateGoal_of_present s ok i g hp]
    refine ⟨returnSave_err _ ok _, returnSave_written _ ok _, ?_⟩
    simp [JSONStorage.returnSave, JSONStorage.GetGoalByID]
  · intro hp
    rw [UpdateTrack_of_present s ok i t hp]
    refine ⟨returnSave_err _ ok _, returnSave_written _ ok _, ?_⟩
    simp [JSONStorage.returnSave, JSONStorage.GetTrackByID]
  · intro hp
    rw [DeleteHabit_of_present s ok i hp]
    refine ⟨returnSave_err _ ok _, returnSave_written _ ok _, ?_⟩
    simp [JSONStorage.returnSave, JSONStorage.GetHabitByID]
  · intro hp
    rw [DeleteGoal_of_present s ok i hp]
    refine ⟨returnSave_err _ ok _, returnSave_written _ ok _, ?_⟩
    simp [JSONStorage.returnSave, JSONStorage.GetGoalByID]
  · intro hp
    rw [DeleteTrack_of_present s ok i hp]
    refine ⟨returnSave_err _ ok _, returnSave_written _ ok _, ?_⟩
    simp [JSONStorage.returnSave, JSONStorage.GetTrackByID]
  · intro habit hp hc
    rw [CompleteHabit_of_open s ok now i habit hp hc]
    refine ⟨returnSave_err _ ok _, returnSave_written _ ok _, ?_, ?_, rfl⟩
    · simp [JSONStorage.returnSave, JSONStorage.GetHabitByID]
    · simp [JSONStorage.returnSave, JSONStorage.GetTrackByID]
  · intro goal hp hc
    rw [CompleteGoal_of_open s ok now i goal hp hc]
    refine ⟨returnSave_err _ ok _, returnSave_written _ ok _, ?_⟩
    simp [JSONStorage.returnSave, JSONStorage.GetGoalByID]
  · intro st
    exact ⟨⟨rfl, rfl, rfl⟩, fun k => mapValues_lookup Habit.document st.Habits k,
      fun k => mapValues_lookup Goal.document st.Goals k,
      fun k => mapValues_lookup HabitTrack.document st.HabitTracks k,
      document_eq_self st, marshals_iff st⟩

/-- Witness for C11 (amended): in the sample store identifier 1 is in all
three maps, neither the habit nor the goal is completed, and every time has
zone offset 0; with a failing write every one of the eight calls returns an
error, and the removal and the completion are in the store it leaves; the
document of the sample store is the sample store. -/
theorem write_after_mutation_witness :
    ((sampleStore.UpdateHabit false 1 sampleHabit).err = true
      ∧ (sampleStore.UpdateGoal false 1 sampleGoal).err = true
      ∧ (sampleStore.UpdateTrack false 1 sampleTrack).err = true)
    ∧ ((sampleStore.DeleteHabit false 1).err = true
      ∧ (sampleStore.DeleteHabit false 1).store.GetHabitByID 1 = none
      ∧ (sampleStore.DeleteGoal false 1).err = true
      ∧ (sampleStore.DeleteTrack false 1).err = true)
    ∧ ((sampleStore.CompleteHabit false sampleTime 1).err = true
      ∧ (sampleStore.CompleteHabit false sampleTime 1).store.GetHabitByID 1
          = some { sampleHabit with ID := 1, Completed := true }
      ∧ (sampleStore.CompleteGoal false sampleTime 1).err = true)
    ∧ sampleStore.document = sampleStore :=
  ⟨⟨((write_after_mutation sampleStore false sampleTime 1 sampleHabit sampleGoal
        sampleTrack).2.2.2.1 (by decide)).1.mpr (Or.inr rfl),
      ((write_after_mutation sampleStore false sampleTime 1 sampleHabit sampleGoal
        sampleTrack).2.2.2.2.1 (by decide)).1.mpr (Or.inr rfl),
      ((write_after_mutation sampleStore false sampleTime 1 sampleHabit sampleGoal
        sampleTrack).2.2.2.2.2.1 (by decide)).1.mpr (Or.inr rfl)⟩,
    ⟨((write_after_mutation sampleStore false sampleTime 1 sampleHabit sampleGoal
        sampleTrack).2.2.2.2.2.2.1 (by decide)).1.mpr (Or.inr rfl),
      ((write_after_mutation sampleStore false sampleTime 1 sampleHabit sampleGoal
        sampleTrack).2.2.2.2.2.2.1 (by decide)).2.2,
      ((write_after_mutation sampleStore false sampleTime 1 sampleHabit sampleGoal
        sampleTrack).2.2.2.2.2.2.2.1 (by decide)).1.mpr (Or.inr rfl),
      ((write_after_mutation sampleStore false sampleTime 1 sampleHabit sampleGoal
        sampleTrack).2.2.2.2.2.2.2.2.1 (by decide)).1.mpr (Or.inr rfl)⟩,
    ⟨((write_after_mutation sampleStore false sampleTime 1 sampleHabit sampleGoal
        sampleTrack).2.2.2.2.2.2.2.2.2.1 { sampleHabit with ID := 1 } (by decide)
        (by decide)).1.mpr (Or.inr rfl),
      ((write_after_mutation sampleStore false sampleTime 1 sampleHabit sampleGoal
        sampleTrack).2.2.2.2.2.2.2.2.2.1 { sampleHabit with ID := 1 } (by decide)
        (by decide)).2.2.1,
      ((write_after_mutation sampleStore false sampleTime 1 sampleHabit sampleGoal
        sampleTrack).2.2.2.2.2.2.2.2.2.2.1 { sampleGoal with ID := 1 } (by decide)
        (by decide)).1.mpr (Or.inr rfl)⟩,
    ((write_after_mutation sampleStore false sampleTime 1 sampleHabit sampleGoal
        sampleTrack).2.2.2.2.2.2.2.2.2.2.2 sampleStore).2.2.2.2.1 (by decide)⟩

/-! ## Delete: no cascade -/

theorem DeleteHabit_frame (s : JSONStorage) (ok : Bool) (i : Int) :
    (s.DeleteHabit ok i).store = { s with Habits := (s.DeleteHabit ok i).store.Habits } := by
  unfold JSONStorage.DeleteHabit
  cases s.Habits.lookup i <;> rfl

theorem DeleteGoal_frame (s : JSONStorage) (ok : Bool) (i : Int) :
    (s.DeleteGoal ok i).store = { s with Goals := (s.DeleteGoal ok i).store.Goals } := by
  unfold JSONStorage.DeleteGoal
  cases s.Goals.lookup i <;> rfl

theorem DeleteTrack_frame (s : JSONStorage) (ok : Bool) (i : Int) :
    (s.DeleteTrack ok i).store
      = { s with HabitTracks := (s.DeleteTrack ok i).store.HabitTracks } := by
  unfold JSONStorage.DeleteTrack
  cases s.HabitTracks.lookup i <;> rfl

/-- C12: in every store a delete changes no map other than its own and no
counter: `DeleteHabit(i)` leaves the tracks, the goals and the three counters
as they were, so every track whose habit reference is i and every goal whose
list of habit identifiers contains i is stored unchanged afterwards; and
`DeleteGoal`, `DeleteTrack` leave the other two maps and the counters as they
were. -/
theorem delete_no_cascade (s : JSONStorage) (ok : Bool) (i : Int) :
    ((s.DeleteHabit ok i).store.HabitTracks = s.HabitTracks
      ∧ (s.DeleteHabit ok i).store.Goals = s.Goals
      ∧ (s.DeleteHabit ok i).store.NextHabitID = s.NextHabitID
      ∧ (s.DeleteHabit ok i).store.NextGoalID = s.NextGoalID
      ∧ (s.DeleteHabit ok i).store.NextTrackID = s.NextTrackID
      ∧ (∀ k track, s.GetTrackByID k = some track → track.HabitID = i →
          (s.DeleteHabit ok i).store.GetTrackByID k = some track)
      ∧ (∀ k goal, s.GetGoalByID k = some goal → i ∈ goal.HabitIDs →
          (s.DeleteHabit ok i).store.GetGoalByID k = some goal))
    ∧ ((s.DeleteGoal ok i).store.Habits = s.Habits
      ∧ (s.DeleteGoal ok i).store.HabitTracks = s.HabitTracks
      ∧ (s.DeleteGoal ok i).store.NextHabitID = s.NextHabitID
      ∧ (s.DeleteGoal ok i).store.NextGoalID = s.NextGoalID
      ∧ (s.DeleteGoal ok i).store.NextTrackID = s.NextTrackID)
    ∧ ((s.DeleteTrack ok i).store.Habits = s.Habits
      ∧ (s.DeleteTrack ok i).store.Goals = s.Goals
      ∧ (s.DeleteTrack ok i).store.NextHabitID = s.NextHabitID
      ∧ (s.DeleteTrack ok i).store.NextGoalID = s.NextGoalID
      ∧ (s.DeleteTrack ok i).store.NextTrackID = s.NextTrackID) := by
  have hh := DeleteHabit_frame s ok i
  have hg := DeleteGoal_frame s ok i
  have ht := DeleteTrack_frame s ok i
  have h1 : (s.DeleteHabit ok i).store.HabitTracks = s.HabitTracks := by rw [hh]
  have h2 : (s.DeleteHabit ok i).store.Goals = s.Goals := by rw [hh]
  refine ⟨⟨h1, h2, by rw [hh], by rw [hh], by rw [hh], ?_, ?_⟩,
    ⟨by rw [hg], by rw [hg], by rw [hg], by rw [hg], by rw [hg]⟩,
    ⟨by rw [ht], by rw [ht], by rw [ht], by rw [ht], by rw [ht]⟩⟩
  · intro k track hk _
    unfold JSONStorage.GetTrackByID at hk ⊢
    rw [h1]; exact hk
  · intro k goal hk _
    unfold JSONStorage.GetGoalByID at hk ⊢
    rw [h2]; exact hk

/-- Witness for C12: in the sample store track 1 refers to habit 1 and goal 1
lists habit 1; after `DeleteHabit(1)` the habit is gone and both are stored as
before. -/
theorem delete_no_cascade_witness :
    sampleStore.GetTrackByID 1 = some { sampleTrack with ID := 1 }
    ∧ (sampleStore.DeleteHabit true 1).store.GetHabitByID 1 = none
    ∧ (sampleStore.DeleteHabit true 1).store.GetTrackByID 1 = some { sampleTrack with ID := 1 }
    ∧ (sampleStore.DeleteHabit true 1).store.GetGoalByID 1 = some { sampleGoal with ID := 1 } :=
  ⟨by decide, by decide,
    (delete_no_cascade sampleStore true 1).1.2.2.2.2.2.1 1 { sampleTrack with ID := 1 }
      (by decide) (by decide),
    (delete_no_cascade sampleStore true 1).1.2.2.2.2.2.2 1 { sampleGoal with ID := 1 }
      (by decide) (by decide)⟩

/-! ## Reachable stores -/

theorem Invariant_new : NewJSONStorage.Invariant := by
  refine ⟨⟨by decide, by decide, by decide⟩, ?_, ?_, ?_⟩ <;> intro k v hk <;>
    simp [NewJSONStorage, JSONStorage.GetHabitByID, JSONStorage.GetGoalByID,
      JSONStorage.GetTrackByID] at hk

/-- Keys and identifiers of a map stay in range when a record carrying its key
is inserted under a key in range. -/
theorem insert_in_range {V : Type} (getID : V → Int) (m : IntMap V) (n n2 : Int) (i : Int)
    (v : V) (hm : ∀ k x, m.lookup k = some x → 1 ≤ k ∧ k < n ∧ getID x = k)
    (hn : n ≤ n2) (hi : 1 ≤ i ∧ i < n2) (hv : getID v = i) :
    ∀ k x, (m.insert i v).lookup k = some x → 1 ≤ k ∧ k < n2 ∧ getID x = k := by
  intro k x hk
  by_cases hki : k = i
  · subst hki
    rw [AList.lookup_insert] at hk
    cases hk
    exact ⟨hi.1, hi.2, hv⟩
  · rw [AList.lookup_insert_ne hki] at hk
    obtain ⟨h1, h2, h3⟩ := hm k x hk
    exact ⟨h1, lt_of_lt_of_le h2 hn, h3⟩

theorem erase_in_range {V : Type} (getID : V → Int) (m : IntMap V) (n : Int) (i : Int)
    (hm : ∀ k x, m.lookup k = some x → 1 ≤ k ∧ k < n ∧ getID x = k) :
    ∀ k x, (m.erase i).lookup k = some x → 1 ≤ k ∧ k < n ∧ getID x = k := by
  intro k x hk
  by_cases hki : k = i
  · subst hki
    rw [AList.lookup_erase] at hk
    cases hk
  · rw [AList.lookup_erase_ne hki] at hk
    exact hm k x hk

theorem Invariant_afterOp (s : JSONStorage) (op : StoreOp) (hs : s.Invariant) :
    (s.afterOp op).Invariant := by
  obtain ⟨⟨c1, c2, c3⟩, ih, ig, it⟩ := hs
  cases op with
  | createHabit ok habit =>
    refine ⟨⟨?_, c2, c3⟩, ?_, ig, it⟩
    · show 1 ≤ s.NextHabitID + 1
      omega
    · exact insert_in_range Habit.ID s.Habits s.NextHabitID (s.NextHabitID + 1) s.NextHabitID _
        ih (by omega) ⟨c1, by omega⟩ rfl
  | updateHabit ok id habit =>
    by_cases hp : s.GetHabitByID id = none
    · simp only [JSONStorage.afterOp, UpdateHabit_of_absent s ok id habit hp]
      exact ⟨⟨c1, c2, c3⟩, ih, ig, it⟩
    · simp only [JSONStorage.afterOp, UpdateHabit_of_present s ok id habit hp]
      obtain ⟨old, hold⟩ := Option.ne_none_iff_exists'.mp hp
      obtain ⟨r1, r2, _⟩ := ih id old hold
      exact ⟨⟨c1, c2, c3⟩,
        insert_in_range Habit.ID s.Habits s.NextHabitID s.NextHabitID id _ ih le_rfl ⟨r1, r2⟩ rfl,
        ig, it⟩
  | deleteHabit ok id =>
    by_cases hp : s.GetHabitByID id = none
    · simp only [JSONStorage.afterOp, DeleteHabit_of_absent s ok id hp]
      exact ⟨⟨c1, c2, c3⟩, ih, ig, it⟩
    · simp only [JSONStorage.afterOp, DeleteHabit_of_present s ok id hp]
      exact ⟨⟨c1, c2, c3⟩, erase_in_range Habit.ID s.Habits s.NextHabitID id ih, ig, it⟩
  | completeHabit ok now id =>
    cases hp : s.GetHabitByID id with
    | none =>
      simp only [JSONStorage.afterOp, CompleteHabit_of_absent s ok now id hp]
      exact ⟨⟨c1, c2, c3⟩, ih, ig, it⟩
    | some habit =>
      cases hc : habit.Completed with
      | true =>
        simp only [JSONStorage.afterOp, CompleteHabit_of_completed s ok now id habit hp hc]
        exact ⟨⟨c1, c2, c3⟩, ih, ig, it⟩
      | false =>
        simp only [JSONStorage.afterOp, CompleteHabit_of_open s ok now id habit hp hc]
        obtain ⟨r1, r2, r3⟩ := ih id habit hp
        refine ⟨⟨c1, c2, ?_⟩, ?_, ig, ?_⟩
        · show 1 ≤ s.NextTrackID + 1
          omega
        · exact insert_in_range Habit.ID s.Habits s.NextHabitID s.NextHabitID id _ ih le_rfl
            ⟨r1, r2⟩ r3
        · exact insert_in_range HabitTrack.ID s.HabitTracks s.NextTrackID (s.NextTrackID + 1)
            s.NextTrackID _ it (by omega) ⟨c3, by omega⟩ rfl
  | createGoal ok goal =>
    refine ⟨⟨c1, ?_, c3⟩, ih, ?_, it⟩
    · show 1 ≤ s.NextGoalID + 1
      omega
    · exact insert_in_range Goal.ID s.Goals s.NextGoalID (s.NextGoalID + 1) s.NextGoalID _
        ig (by omega) ⟨c2, by omega⟩ rfl
  | updateGoal ok id goal =>
    by_cases hp : s.GetGoalByID id = none
    · simp only [JSONStorage.afterOp, UpdateGoal_of_absent s ok id goal hp]
      exact ⟨⟨c1, c2, c3⟩, ih, ig, it⟩
    · simp only [JSONStorage.afterOp, UpdateGoal_of_present s ok id goal hp]
      obtain ⟨old, hold⟩ := Option.ne_none_iff_exists'.mp hp
      obtain ⟨r1, r2, _⟩ := ig id old hold
      exact ⟨⟨c1, c2, c3⟩, ih,
        insert_in_range Goal.ID s.Goals s.NextGoalID s.NextGoalID id _ ig le_rfl ⟨r1, r2⟩ rfl,
        it⟩
  | deleteGoal ok id =>
    by_cases hp : s.GetGoalByID id = none
    · simp only [JSONStorage.afterOp, DeleteGoal_of_absent s ok id hp]
      exact ⟨⟨c1, c2, c3⟩, ih, ig, it⟩
    · simp only [JSONStorage.afterOp, DeleteGoal_of_present s ok id hp]
      exact ⟨⟨c1, c2, c3⟩, ih, erase_in_range Goal.ID s.Goals s.NextGoalID id ig, it⟩
  | completeGoal ok now id =>
    cases hp : s.GetGoalByID id with
    | none =>
      simp only [JSONStorage.afterOp, CompleteGoal_of_absent s ok now id hp]
      exact ⟨⟨c1, c2, c3⟩, ih, ig, it⟩
    | some goal =>
      cases hc : goal.Completed with
      | true =>
        simp only [JSONStorage.afterOp, CompleteGoal_of_completed s ok now id goal hp hc]
        exact ⟨⟨c1, c2, c3⟩, ih, ig, it⟩
      | false =>
        simp only [JSONStorage.afterOp, CompleteGoal_of_open s ok now id goal hp hc]
        obtain ⟨r1, r2, r3⟩ := ig id goal hp
        exact ⟨⟨c1, c2, c3⟩, ih,
          insert_in_range Goal.ID s.Goals s.NextGoalID s.NextGoalID id _ ig le_rfl ⟨r1, r2⟩ r3,
          it⟩
  | createTrack ok track =>
    refine ⟨⟨c1, c2, ?_⟩, ih, ig, ?_⟩
    · show 1 ≤ s.NextTrackID + 1
      omega
    · exact insert_in_range HabitTrack.ID s.HabitTracks s.NextTrackID (s.NextTrackID + 1)
        s.NextTrackID _ it (by omega) ⟨c3, by omega⟩ rfl
  | updateTrack ok id track =>
    by_cases hp : s.GetTrackByID id = none
    · simp only [JSONStorage.afterOp, UpdateTrack_of_absent s ok id track hp]
      exact ⟨⟨c1, c2, c3⟩, ih, ig, it⟩
    · simp only [JSONStorage.afterOp, UpdateTrack_of_present s ok id track hp]
      obtain ⟨old, hold⟩ := Option.ne_none_iff_exists'.mp hp
      obtain ⟨r1, r2, _⟩ := it id old hold
      exact ⟨⟨c1, c2, c3⟩, ih, ig,
        insert_in_range HabitTrack.ID s.HabitTracks s.NextTrackID s.NextTrackID id _ it le_rfl
          ⟨r1, r2⟩ rfl⟩
  | deleteTrack ok id =>
    by_cases hp : s.GetTrackByID id = none
    · simp only [JSONStorage.afterOp, DeleteTrack_of_absent s ok id hp]
      exact ⟨⟨c1, c2, c3⟩, ih, ig, it⟩
    · simp only [JSONStorage.afterOp, DeleteTrack_of_present s ok id hp]
      exact ⟨⟨c1, c2, c3⟩, ih, ig,
        erase_in_range HabitTrack.ID s.HabitTracks s.NextTrackID id it⟩

theorem Invariant_afterOps (ops : List StoreOp) :
    ∀ s : JSONStorage, s.Invariant → (s.afterOps ops).Invariant := by
  induction ops with
  | nil => intro s hs; exact hs
  | cons op ops ih =>
    intro s hs
    exact ih (s.afterOp op) (Invariant_afterOp s op hs)

theorem afterOp_counters (s : JSONStorage) (op : StoreOp) :
    s.NextHabitID ≤ (s.afterOp op).NextHabitID
    ∧ s.NextGoalID ≤ (s.afterOp op).NextGoalID
    ∧ s.NextTrackID ≤ (s.afterOp op).NextTrackID := by
  cases op with
  | createHabit ok habit => exact ⟨by show s.NextHabitID ≤ s.NextHabitID + 1; omega, le_rfl, le_rfl⟩
  | updateHabit ok id habit =>
    simp only [JSONStorage.afterOp, JSONStorage.UpdateHabit]
    cases s.Habits.lookup id <;> exact ⟨le_rfl, le_rfl, le_rfl⟩
  | deleteHabit ok id =>
    simp only [JSONStorage.afterOp, JSONStorage.DeleteHabit]
    cases s.Habits.lookup id <;> exact ⟨le_rfl, le_rfl, le_rfl⟩
  | completeHabit ok now id =>
    cases hp : s.GetHabitByID id with
    | none =>
      simp only [JSONStorage.afterOp, CompleteHabit_of_absent s ok now id hp]
      exact ⟨le_rfl, le_rfl, le_rfl⟩
    | some habit =>
      cases hc : habit.Completed with
      | true =>
        simp only [JSONStorage.afterOp, CompleteHabit_of_completed s ok now id habit hp hc]
        exact ⟨le_rfl, le_rfl, le_rfl⟩
      | false =>
        simp only [JSONStorage.afterOp, CompleteHabit_of_open s ok now id habit hp hc]
        exact ⟨le_rfl, le_rfl, by show s.NextTrackID ≤ s.NextTrackID + 1; omega⟩
  | createGoal ok goal => exact ⟨le_rfl, by show s.NextGoalID ≤ s.NextGoalID + 1; omega, le_rfl⟩
  | updateGoal ok id goal =>
    simp only [JSONStorage.afterOp, JSONStorage.UpdateGoal]
    cases s.Goals.lookup id <;> exact ⟨le_rfl, le_rfl, le_rfl⟩
  | deleteGoal ok id =>
    simp only [JSONStorage.afterOp, JSONStorage.DeleteGoal]
    cases s.Goals.lookup id <;> exact ⟨le_rfl, le_rfl, le_rfl⟩
  | completeGoal ok now id =>
    cases hp : s.GetGoalByID id with
    | none =>
      simp only [JSONStorage.afterOp, CompleteGoal_of_absent s ok now id hp]
      exact ⟨le_rfl, le_rfl, le_rfl⟩
    | some goal =>
      cases hc : goal.Completed with
      | true =>
        simp only [JSONStorage.afterOp, CompleteGoal_of_completed s ok now id goal hp hc]
        exact ⟨le_rfl, le_rfl, le_rfl⟩
      | false =>
        simp only [JSONStorage.afterOp, CompleteGoal_of_open s ok now id goal hp hc]
        exact ⟨le_rfl, le_rfl, le_rfl⟩
  | createTrack ok track => exact ⟨le_rfl, le_rfl, by show s.NextTrackID ≤ s.NextTrackID + 1; omega⟩
  | updateTrack ok id track =>
    simp only [JSONStorage.afterOp, JSONStorage.UpdateTrack]
    cases s.HabitTracks.lookup id <;> exact ⟨le_rfl, le_rfl, le_rfl⟩
  | deleteTrack ok id =>
    simp only [JSONStorage.afterOp, JSONStorage.DeleteTrack]
    cases s.HabitTracks.lookup id <;> exact ⟨le_rfl, le_rfl, le_rfl⟩

/-- In a map whose keys lie below `n` nothing is stored under `n`, so an
insert under `n` adds one entry and leaves the entries that were there. -/
theorem insert_at_counter {V : Type} (getID : V → Int) (m : IntMap V) (n : Int) (v : V)
    (hm : ∀ k x, m.lookup k = some x → 1 ≤ k ∧ k < n ∧ getID x = k) :
    (m.insert n v).entries.length = m.entries.length + 1
    ∧ ∀ k x, m.lookup k = some x → (m.insert n v).lookup k = some x := by
  have hfree : m.lookup n = none := by
    cases hn : m.lookup n with
    | none => rfl
    | some x => exact absurd (hm n x hn).2.1 (lt_irrefl n)
  refine ⟨length_insert_of_absent m n v hfree, fun k x hk => ?_⟩
  have hkn : k ≠ n := by
    intro h
    rw [h, hfree] at hk
    cases hk
  rw [AList.lookup_insert_ne hkn]
  exact hk

/-- C13: in every store reached from the empty store by a sequence of calls
of the mutating methods, whatever their writes do, every key of a map is at
least 1 and below the counter of that map and the record under a key carries
the key as its identifier; no call lowers a counter; and a create adds one
entry to its map and leaves every entry that was there as it was. -/
theorem reachable_invariant (ops : List StoreOp) (s : JSONStorage)
    (hs : s = NewJSONStorage.afterOps ops) :
    ((∀ k habit, s.GetHabitByID k = some habit → 1 ≤ k ∧ k < s.NextHabitID ∧ habit.ID = k)
      ∧ (∀ k goal, s.GetGoalByID k = some goal → 1 ≤ k ∧ k < s.NextGoalID ∧ goal.ID = k)
      ∧ (∀ k track, s.GetTrackByID k = some track →
          1 ≤ k ∧ k < s.NextTrackID ∧ track.ID = k))
    ∧ (∀ op : StoreOp,
        s.NextHabitID ≤ (s.afterOp op).NextHabitID
        ∧ s.NextGoalID ≤ (s.afterOp op).NextGoalID
        ∧ s.NextTrackID ≤ (s.afterOp op).NextTrackID)
    ∧ (∀ (ok : Bool) (habit : Habit),
        (s.CreateHabit ok habit).store.GetAllHabits.length = s.GetAllHabits.length + 1
        ∧ ∀ k old, s.GetHabitByID k = some old →
            (s.CreateHabit ok habit).store.GetHabitByID k = some old)
    ∧ (∀ (ok : Bool) (goal : Goal),
        (s.CreateGoal ok goal).store.GetAllGoals.length = s.GetAllGoals.length + 1
        ∧ ∀ k old, s.GetGoalByID k = some old →
            (s.CreateGoal ok goal).store.GetGoalByID k = some old)
    ∧ (∀ (ok : Bool) (track : HabitTrack),
        (s.CreateTrack ok track).store.GetAllTracks.length = s.GetAllTracks.length + 1
        ∧ ∀ k old, s.GetTrackByID k = some old →
            (s.CreateTrack ok track).store.GetTrackByID k = some old) := by
  have hinv : s.Invariant := by
    rw [hs]
    exact Invariant_afterOps ops NewJSONStorage Invariant_new
  obtain ⟨_, ih, ig, it⟩ := hinv
  refine ⟨⟨ih, ig, it⟩, afterOp_counters s, ?_, ?_, ?_⟩
  · intro ok habit
    have h := insert_at_counter Habit.ID s.Habits s.NextHabitID
      { habit with ID := s.NextHabitID } ih
    simp only [JSONStorage.GetAllHabits, List.length_map]
    exact h
  · intro ok goal
    have h := insert_at_counter Goal.ID s.Goals s.NextGoalID
      { goal with ID := s.NextGoalID } ig
    simp only [JSONStorage.GetAllGoals, List.length_map]
    exact h
  · intro ok track
    have h := insert_at_counter HabitTrack.ID s.HabitTracks s.NextTrackID
      { track with ID := s.NextTrackID } it
    simp only [JSONStorage.GetAllTracks, List.length_map]
    exact h

/-- Witness for C13: after `sampleOps` the track synthesized by the completion
is stored under 2, which is below the track counter 3, and a further
`CreateHabit` adds a second habit and keeps habit 1. -/
theorem reachable_invariant_witness :
    (NewJSONStorage.afterOps sampleOps).NextTrackID = 3
    ∧ ((1 : Int) ≤ 2 ∧ 2 < (NewJSONStorage.afterOps sampleOps).NextTrackID
        ∧ ({ ID := 2, HabitID := 1, Date := sampleTime, Completed := true,
             Notes := "Marked as completed via API" } : HabitTrack).ID = 2)
    ∧ ((NewJSONStorage.afterOps sampleOps).CreateHabit true sampleHabit).store.GetAllHabits.length
        = (NewJSONStorage.afterOps sampleOps).GetAllHabits.length + 1
    ∧ ((NewJSONStorage.afterOps sampleOps).CreateHabit true sampleHabit).store.GetHabitByID 1
        = some { sampleHabit with ID := 1, Completed := true } :=
  ⟨by decide,
    (reachable_invariant sampleOps (NewJSONStorage.afterOps sampleOps) rfl).1.2.2 2
      { ID := 2, HabitID := 1, Date := sampleTime, Completed := true,
        Notes := "Marked as completed via API" } (by decide),
    ((reachable_invariant sampleOps (NewJSONStorage.afterOps sampleOps) rfl).2.2.1 true
      sampleHabit).1,
    ((reachable_invariant sampleOps (NewJSONStorage.afterOps sampleOps) rfl).2.2.1 true
      sampleHabit).2 1 { sampleHabit with ID := 1, Completed := true } (by decide)⟩

/-! ## Statistics: the categories partition the habits -/

theorem sum_kerase_add_dlookup (f : CategoryStats → Int) (k : String) :
    ∀ l : List ((_ : String) × CategoryStats),
      ((l.kerase k).map (fun e => f e.2)).sum + ((l.dlookup k).map f).getD 0
        = (l.map (fun e => f e.2)).sum := by
  intro l
  induction l with
  | nil => simp
  | cons e t ih =>
    obtain ⟨a, b⟩ := e
    by_cases hk : k = a
    · subst hk
      simp [List.kerase_cons_eq, List.dlookup_cons_eq]
      ring
    · rw [List.kerase_cons_ne hk, List.dlookup_cons_ne t ⟨a, b⟩ hk]
      simp only [List.map_cons, List.sum_cons]
      linarith

theorem sum_insert (f : CategoryStats → Int) (m : StringMap CategoryStats) (k : String)
    (v : CategoryStats) :
    ((m.insert k v).entries.map (fun e => f e.2)).sum + ((m.lookup k).map f).getD 0
      = (m.entries.map (fun e => f e.2)).sum + f v := by
  have h := sum_kerase_add_dlookup f k m.entries
  rw [AList.insert_entries]
  simp only [List.map_cons, List.sum_cons]
  have hl : m.lookup k = m.entries.dlookup k := rfl
  rw [hl]
  linarith

theorem habitStep_snd (acc : Int × StringMap CategoryStats) (h : Habit) :
    (habitStep acc h).2
      = acc.2.insert h.Category
          (categoryCounts ((acc.2.lookup h.Category).getD CategoryStats.zero) [h] h.Category) := by
  simp only [habitStep]
  cases hc : h.Completed <;> simp [categoryCounts, hc, List.countP_cons]

theorem getD_zero_Total (o : Option CategoryStats) :
    (o.map (fun c => c.Total)).getD 0 = (o.getD CategoryStats.zero).Total := by
  cases o <;> rfl

theorem getD_zero_Completed (o : Option CategoryStats) :
    (o.map (fun c => c.Completed)).getD 0 = (o.getD CategoryStats.zero).Completed := by
  cases o <;> rfl

theorem sum_Total_habitStep (acc : Int × StringMap CategoryStats) (h : Habit) :
    ((habitStep acc h).2.entries.map (fun e => e.2.Total)).sum
      = (acc.2.entries.map (fun e => e.2.Total)).sum + 1 := by
  have hi := sum_insert (fun c => c.Total) acc.2 h.Category
    (categoryCounts ((acc.2.lookup h.Category).getD CategoryStats.zero) [h] h.Category)
  rw [← habitStep_snd, getD_zero_Total] at hi
  simp [categoryCounts, List.countP_cons] at hi
  linarith

theorem sum_Completed_habitStep (acc : Int × StringMap CategoryStats) (h : Habit) :
    ((habitStep acc h).2.entries.map (fun e => e.2.Completed)).sum
      = (acc.2.entries.map (fun e => e.2.Completed)).sum + (if h.Completed then 1 else 0) := by
  have hi := sum_insert (fun c => c.Completed) acc.2 h.Category
    (categoryCounts ((acc.2.lookup h.Category).getD CategoryStats.zero) [h] h.Category)
  rw [← habitStep_snd, getD_zero_Completed] at hi
  cases hc : h.Completed <;> simp [categoryCounts, List.countP_cons, hc] at hi ⊢ <;> linarith

theorem sum_foldl_habitStep (l : List Habit) : ∀ acc : Int × StringMap CategoryStats,
    ((l.foldl habitStep acc).2.entries.map (fun e => e.2.Total)).sum
        = (acc.2.entries.map (fun e => e.2.Total)).sum + (l.length : Int)
    ∧ ((l.foldl habitStep acc).2.entries.map (fun e => e.2.Completed)).sum
        = (acc.2.entries.map (fun e => e.2.Completed)).sum
          + (l.countP (fun h => h.Completed) : Nat) := by
  induction l with
  | nil => intro acc; simp
  | cons h t ih =>
    intro acc
    rw [List.foldl_cons]
    obtain ⟨h1, h2⟩ := ih (habitStep acc h)
    rw [h1, h2, sum_Total_habitStep, sum_Completed_habitStep]
    constructor
    · simp only [List.length_cons]; push_cast; ring
    · cases hc : h.Completed <;> simp [List.countP_cons, hc]
      ring

theorem sum_foldl_categoryStep (f : CategoryStats → Int)
    (hf : ∀ c : CategoryStats, f c.withPercentage = f c) :
    ∀ (l : List ((_ : String) × CategoryStats)) (m : StringMap CategoryStats),
      (∀ e ∈ l, (m.lookup e.1).map f = some (f e.2)) →
      ((l.foldl categoryStep m).entries.map (fun e => f e.2)).sum
        = (m.entries.map (fun e => f e.2)).sum := by
  intro l
  induction l with
  | nil => intro m _; rfl
  | cons e t ih =>
    intro m hm
    rw [List.foldl_cons]
    have he := hm e (List.mem_cons_self e t)
    have hstep : ((categoryStep m e).entries.map (fun e => f e.2)).sum
        = (m.entries.map (fun e => f e.2)).sum := by
      have hi := sum_insert f m e.1 e.2.withPercentage
      rw [he, hf] at hi
      simp only [categoryStep]
      simp only [Option.getD_some] at hi
      linarith
    rw [ih (categoryStep m e), hstep]
    intro e2 he2
    have h2 := hm e2 (List.mem_cons_of_mem e he2)
    by_cases hk : e2.1 = e.1
    · have hl : (categoryStep m e).lookup e2.1 = some e.2.withPercentage := by
        rw [hk]
        exact AList.lookup_insert m
      rw [hk, he] at h2
      rw [hl, Option.map_some', hf]
      exact h2
    · simp only [categoryStep, AList.lookup_insert_ne hk]
      exact h2

theorem withPercentage_Total (c : CategoryStats) : c.withPercentage.Total = c.Total := by
  unfold CategoryStats.withPercentage
  split <;> rfl

theorem withPercentage_Completed (c : CategoryStats) :
    c.withPercentage.Completed = c.Completed := by
  unfold CategoryStats.withPercentage
  split <;> rfl

theorem lookup_of_mem_entries (m : StringMap CategoryStats) (e : (_ : String) × CategoryStats)
    (he : e ∈ m.entries) : m.lookup e.1 = some e.2 := by
  obtain ⟨k, v⟩ := e
  exact AList.mem_lookup_iff.mpr he

theorem GetStatistics_Categories_sums (s : JSONStorage) (now : Time) :
    ((s.GetStatistics now).Categories.entries.map (fun e => e.2.Total)).sum
        = (s.GetStatistics now).TotalHabits
    ∧ ((s.GetStatistics now).Categories.entries.map (fun e => e.2.Completed)).sum
        = (s.GetStatistics now).CompletedHabits := by
  obtain ⟨h1, h2⟩ := sum_foldl_habitStep s.GetAllHabits (0, ∅)
  have hc := GetStatistics_CompletedHabits s now
  have e1 := sum_foldl_categoryStep (fun c => c.Total) withPercentage_Total
    (s.GetAllHabits.foldl habitStep (0, ∅)).2.entries (s.GetAllHabits.foldl habitStep (0, ∅)).2
    (fun e he => by rw [lookup_of_mem_entries _ e he]; rfl)
  have e2 := sum_foldl_categoryStep (fun c => c.Completed) withPercentage_Completed
    (s.GetAllHabits.foldl habitStep (0, ∅)).2.entries (s.GetAllHabits.foldl habitStep (0, ∅)).2
    (fun e he => by rw [lookup_of_mem_entries _ e he]; rfl)
  constructor
  · show ((((s.GetAllHabits.foldl habitStep (0, ∅)).2.entries.foldl categoryStep
        (s.GetAllHabits.foldl habitStep (0, ∅)).2).entries.map (fun e => e.2.Total)).sum : Int)
      = (s.Habits.entries.length : Int)
    rw [e1, h1]
    simp [JSONStorage.GetAllHabits]
  · rw [hc]
    show ((((s.GetAllHabits.foldl habitStep (0, ∅)).2.entries.foldl categoryStep
        (s.GetAllHabits.foldl habitStep (0, ∅)).2).entries.map (fun e => e.2.Completed)).sum : Int)
      = _
    rw [e2, h2]
    simp

theorem rate_range (c t : Int) (hc : 0 ≤ c) (hct : c ≤ t) :
    0 ≤ (if t > 0 then percentOf c t else 0) ∧ (if t > 0 then percentOf c t else 0) ≤ 100 := by
  by_cases ht : t > 0
  · rw [if_pos ht]
    exact percentOf_range c t hc hct ht
  · rw [if_neg ht]
    norm_num

theorem countP_le_length_int {α : Type} (p : α → Bool) (l : List α) :
    ((l.countP p : Nat) : Int) ≤ (l.length : Int) := by
  exact_mod_cast List.countP_le_length p

/-- C14: in every store the category breakdown of `GetStatistics` partitions
the habits: the Total of the entries sum to TotalHabits and the Completed of
the entries sum to CompletedHabits; every entry has 1 ≤ Total,
0 ≤ Completed ≤ Total and its Percentage between 0 and 100; and
HabitCompletionRate, GoalCompletionRate and OverallProgress lie between 0 and
100. -/
theorem category_partition (s : JSONStorage) (now : Time) :
    ((s.GetStatistics now).Categories.entries.map (fun e => e.2.Total)).sum
        = (s.GetStatistics now).TotalHabits
    ∧ ((s.GetStatistics now).Categories.entries.map (fun e => e.2.Completed)).sum
        = (s.GetStatistics now).CompletedHabits
    ∧ (∀ e ∈ (s.GetStatistics now).Categories.entries,
        1 ≤ e.2.Total ∧ 0 ≤ e.2.Completed ∧ e.2.Completed ≤ e.2.Total
        ∧ 0 ≤ e.2.Percentage ∧ e.2.Percentage ≤ 100)
    ∧ (0 ≤ (s.GetStatistics now).HabitCompletionRate
        ∧ (s.GetStatistics now).HabitCompletionRate ≤ 100)
    ∧ (0 ≤ (s.GetStatistics now).GoalCompletionRate
        ∧ (s.GetStatistics now).GoalCompletionRate ≤ 100)
    ∧ (0 ≤ (s.GetStatistics now).OverallProgress
        ∧ (s.GetStatistics now).OverallProgress ≤ 100) := by
  have hch := GetStatistics_CompletedHabits s now
  have hcg := GetStatistics_CompletedGoals s now
  have hh0 : 0 ≤ (s.GetStatistics now).CompletedHabits := by rw [hch]; exact Int.natCast_nonneg _
  have hg0 : 0 ≤ (s.GetStatistics now).CompletedGoals := by rw [hcg]; exact Int.natCast_nonneg _
  have hh1 : (s.GetStatistics now).CompletedHabits ≤ (s.Habits.entries.length : Int) := by
    rw [hch]
    have := countP_le_length_int (fun h : Habit => h.Completed) s.GetAllHabits
    simpa [JSONStorage.GetAllHabits] using this
  have hg1 : (s.GetStatistics now).CompletedGoals ≤ (s.Goals.entries.length : Int) := by
    rw [hcg]
    have := countP_le_length_int (fun g : Goal => g.Completed) s.GetAllGoals
    simpa [JSONStorage.GetAllGoals] using this
  refine ⟨(GetStatistics_Categories_sums s now).1, (GetStatistics_Categories_sums s now).2,
    ?_, ?_, ?_, ?_⟩
  · intro e he
    obtain ⟨h1, h2, h3, h4⟩ := Categories_lookup_some s now e.1 e.2
      (lookup_of_mem_entries _ e he)
    have hle : e.2.Completed ≤ e.2.Total := by
      rw [h1, h2]
      exact_mod_cast List.countP_mono_left (fun x _ hx => by
        simp only [Bool.and_eq_true, decide_eq_true_eq] at hx ⊢
        exact hx.1)
    have h0 : 0 ≤ e.2.Completed := by rw [h2]; exact Int.natCast_nonneg _
    have hr := percentOf_range e.2.Completed e.2.Total h0 hle h3
    rw [← h4] at hr
    exact ⟨by omega, h0, hle, hr.1, hr.2⟩
  · exact rate_range (s.GetStatistics now).CompletedHabits (s.Habits.entries.length : Int)
      hh0 hh1
  · exact rate_range (s.GetStatistics now).CompletedGoals (s.Goals.entries.length : Int)
      hg0 hg1
  · exact rate_range
      ((s.GetStatistics now).CompletedHabits + (s.GetStatistics now).CompletedGoals)
      ((s.Habits.entries.length : Int) + (s.Goals.entries.length : Int))
      (by omega) (by omega)

theorem fitnessStore_fitness_entry :
    (fitnessStore.GetStatistics sampleTime).Categories.lookup "fitness"
      = some { Total := 2, Completed := 1, Percentage := 50 } := by
  rw [GetStatistics_Categories_lookup, if_pos (by decide)]
  have h2 : fitnessStore.GetAllHabits.countP (fun h => decide (h.Category = "fitness")) = 2 := by
    decide
  have h1 : fitnessStore.GetAllHabits.countP
      (fun h => decide (h.Category = "fitness") && h.Completed) = 1 := by
    decide
  simp only [categoryCounts, CategoryStats.zero, zero_add, h2, h1,
    CategoryStats.withPercentage]
  norm_num
  exact percentOf_one_two

/-- Witness for C14: the breakdown of `fitnessStore` has the entry "fitness"
with total 2, completed 1, percentage 50, which satisfies the bounds. -/
theorem category_partition_witness :
    (⟨"fitness", { Total := 2, Completed := 1, Percentage := 50 }⟩ :
        (_ : String) × CategoryStats) ∈ (fitnessStore.GetStatistics sampleTime).Categories.entries
    ∧ ((1 : Int) ≤ 2 ∧ (0 : Int) ≤ 1 ∧ (1 : Int) ≤ 2 ∧ (0 : ℚ) ≤ 50 ∧ (50 : ℚ) ≤ 100) :=
  ⟨AList.mem_lookup_iff.mp fitnessStore_fitness_entry,
    (category_partition fitnessStore sampleTime).2.2.1
      ⟨"fitness", { Total := 2, Completed := 1, Percentage := 50 }⟩
      (AList.mem_lookup_iff.mp fitnessStore_fitness_entry)⟩

/-! ## Completion on reachable stores -/

/-- In a store reached from the empty store no track is stored under the
current value of the track counter. -/
theorem reachable_track_key_free (ops : List StoreOp) :
    (NewJSONStorage.afterOps ops).GetTrackByID (NewJSONStorage.afterOps ops).NextTrackID
      = none := by
  obtain ⟨_, _, _, it⟩ := Invariant_afterOps ops NewJSONStorage Invariant_new
  cases h : (NewJSONStorage.afterOps ops).GetTrackByID (NewJSONStorage.afterOps ops).NextTrackID with
  | none => rfl
  | some track => exact absurd (it _ track h).2.1 (lt_irrefl _)

/-- C4: in every store reached from the empty store by calls of the mutating
methods, whatever their writes did, in which habit i is present and not
completed, `CompleteHabit(i)` sets the completed flag of habit i and nothing
else in it, stores under the old value of the track counter, which was not in
use, a track with that identifier, habit reference i, date `now`, completed
flag set and the fixed note, raises the track counter by 1 and the number of
tracks by 1, and leaves every other habit, every track that was stored, the
goals and the other two counters as they were. -/
theorem complete_habit_effect (ops : List StoreOp) (s : JSONStorage)
    (hs : s = NewJSONStorage.afterOps ops) (ok : Bool) (now : Time) (i : Int) (habit : Habit)
    (hp : s.GetHabitByID i = some habit) (hc : habit.Completed = false) :
    (s.CompleteHabit ok now i).store.GetHabitByID i = some { habit with Completed := true }
    ∧ (∀ j, j ≠ i → (s.CompleteHabit ok now i).store.GetHabitByID j = s.GetHabitByID j)
    ∧ s.GetTrackByID s.NextTrackID = none
    ∧ (s.CompleteHabit ok now i).store.GetTrackByID s.NextTrackID
        = some { ID := s.NextTrackID, HabitID := i, Date := now, Completed := true,
                 Notes := "Marked as completed via API" }
    ∧ (∀ j, j ≠ s.NextTrackID →
        (s.CompleteHabit ok now i).store.GetTrackByID j = s.GetTrackByID j)
    ∧ (∀ j track, s.GetTrackByID j = some track →
        (s.CompleteHabit ok now i).store.GetTrackByID j = some track)
    ∧ (s.CompleteHabit ok now i).store.GetAllTracks.length = s.GetAllTracks.length + 1
    ∧ (s.CompleteHabit ok now i).store.NextTrackID = s.NextTrackID + 1
    ∧ (s.CompleteHabit ok now i).store.Goals = s.Goals
    ∧ (s.CompleteHabit ok now i).store.NextHabitID = s.NextHabitID
    ∧ (s.CompleteHabit ok now i).store.NextGoalID = s.NextGoalID := by
  have hfree : s.GetTrackByID s.NextTrackID = none := by
    rw [hs]; exact reachable_track_key_free ops
  obtain ⟨h1, h2, h3, h4, h5, h6, h7, h8, h9⟩ :=
    CompleteHabit_effect_of_free_key s ok now i habit hp hc hfree
  refine ⟨h1, h2, hfree, h3, h4, ?_, h5, h6, h7, h8, h9⟩
  intro j track hj
  have hne : j ≠ s.NextTrackID := by
    intro h
    rw [h, hfree] at hj
    cases hj
  rw [h4 j hne]
  exact hj

/-- Witness for C4: the sample store is reached by three creates; habit 1 is
present and not completed; after `CompleteHabit(1)` there are two tracks, the
track counter is 3 and the track that was stored under 1 is still there. -/
theorem complete_habit_effect_witness :
    sampleStore = NewJSONStorage.afterOps sampleStoreOps
    ∧ sampleStore.GetHabitByID 1 = some { sampleHabit with ID := 1 }
    ∧ (sampleStore.CompleteHabit true sampleTime 1).store.GetAllTracks.length
        = sampleStore.GetAllTracks.length + 1
    ∧ (sampleStore.CompleteHabit true sampleTime 1).store.NextTrackID
        = sampleStore.NextTrackID + 1
    ∧ (sampleStore.CompleteHabit true sampleTime 1).store.GetTrackByID 1
        = some { sampleTrack with ID := 1 } :=
  ⟨rfl, by decide,
    (complete_habit_effect sampleStoreOps sampleStore rfl true sampleTime 1
      { sampleHabit with ID := 1 } (by decide) (by decide)).2.2.2.2.2.2.1,
    (complete_habit_effect sampleStoreOps sampleStore rfl true sampleTime 1
      { sampleHabit with ID := 1 } (by decide) (by decide)).2.2.2.2.2.2.2.1,
    (complete_habit_effect sampleStoreOps sampleStore rfl true sampleTime 1
      { sampleHabit with ID := 1 } (by decide) (by decide)).2.2.2.2.2.1 1
      { sampleTrack with ID := 1 } (by decide)⟩

/-- C5: in every store, `CompleteHabit(i)` on a completed habit,
`CompleteGoal(i)` on a completed goal and either call on an identifier that is
not in the map return no error, call no write and leave the store as it was.
Hence a second `CompleteHabit(i)` after a first one on a present, not
completed habit changes nothing, whatever the clock and the writes do; and in
every store reached from the empty store by calls of the mutating methods the
two calls together add exactly one track. -/
theorem complete_idempotent (s : JSONStorage) (ok ok2 : Bool) (now now2 : Time) (i : Int) :
    (∀ habit, s.GetHabitByID i = some habit → habit.Completed = true →
        (s.CompleteHabit ok now i).err = false ∧ (s.CompleteHabit ok now i).written = none
        ∧ (s.CompleteHabit ok now i).store = s)
    ∧ (∀ goal, s.GetGoalByID i = some goal → goal.Completed = true →
        (s.CompleteGoal ok now i).err = false ∧ (s.CompleteGoal ok now i).written = none
        ∧ (s.CompleteGoal ok now i).store = s)
    ∧ (s.GetHabitByID i = none →
        (s.CompleteHabit ok now i).err = false ∧ (s.CompleteHabit ok now i).written = none
        ∧ (s.CompleteHabit ok now i).store = s)
    ∧ (s.GetGoalByID i = none →
        (s.CompleteGoal ok now i).err = false ∧ (s.CompleteGoal ok now i).written = none
        ∧ (s.CompleteGoal ok now i).store = s)
    ∧ (∀ habit, s.GetHabitByID i = some habit → habit.Completed = false →
        ((s.CompleteHabit ok now i).store.CompleteHabit ok2 now2 i).err = false
        ∧ ((s.CompleteHabit ok now i).store.CompleteHabit ok2 now2 i).written = none
        ∧ ((s.CompleteHabit ok now i).store.CompleteHabit ok2 now2 i).store
            = (s.CompleteHabit ok now i).store
        ∧ (∀ ops : List StoreOp, s = NewJSONStorage.afterOps ops →
            ((s.CompleteHabit ok now i).store.CompleteHabit ok2 now2 i).store.GetAllTracks.length
              = s.GetAllTracks.length + 1)) := by
  refine ⟨?_, ?_, ?_, ?_, ?_⟩
  · intro habit hp hc
    rw [CompleteHabit_of_completed s ok now i habit hp hc]
    exact ⟨rfl, rfl, rfl⟩
  · intro goal hp hc
    rw [CompleteGoal_of_completed s ok now i goal hp hc]
    exact ⟨rfl, rfl, rfl⟩
  · intro hp
    rw [CompleteHabit_of_absent s ok now i hp]
    exact ⟨rfl, rfl, rfl⟩
  · intro hp
    rw [CompleteGoal_of_absent s ok now i hp]
    exact ⟨rfl, rfl, rfl⟩
  · intro habit hp hc
    have h2 := CompleteHabit_of_completed (s.CompleteHabit ok now i).store ok2 now2 i
      { habit with Completed := true } (CompleteHabit_then_get s ok now i habit hp hc) rfl
    rw [h2]
    refine ⟨rfl, rfl, rfl, fun ops hs => ?_⟩
    have hfree : s.GetTrackByID s.NextTrackID = none := by
      rw [hs]; exact reachable_track_key_free ops
    exact CompleteHabit_tracks_length s ok now i habit hp hc hfree

/-- Witness for C5: in `completedStore` habit 1 and goal 1 are completed and
identifier 2 is in neither map, so the four calls leave it as it is; the
sample store is reached by three creates and its habit 1 is not completed, so
two calls of `CompleteHabit(1)` add one track. -/
theorem complete_idempotent_witness :
    (completedStore.CompleteHabit false sampleTime 1).store = completedStore
    ∧ (completedStore.CompleteGoal false sampleTime 1).store = completedStore
    ∧ (completedStore.CompleteHabit false sampleTime 2).store = completedStore
    ∧ (completedStore.CompleteGoal false sampleTime 2).store = completedStore
    ∧ ((sampleStore.CompleteHabit true sampleTime 1).store.CompleteHabit true sampleTime
          1).store.GetAllTracks.length = sampleStore.GetAllTracks.length + 1 :=
  ⟨((complete_idempotent completedStore false false sampleTime sampleTime 1).1
      { sampleHabit with ID := 1, Completed := true } (by decide) (by decide)).2.2,
    ((complete_idempotent completedStore false false sampleTime sampleTime 1).2.1
      { sampleGoal with ID := 1, Completed := true, CompletedAt := sampleTime }
      (by decide) (by decide)).2.2,
    ((complete_idempotent completedStore false false sampleTime sampleTime 2).2.2.1
      (by decide)).2.2,
    ((complete_idempotent completedStore false false sampleTime sampleTime 2).2.2.2.1
      (by decide)).2.2,
    ((complete_idempotent sampleStore true true sampleTime sampleTime 1).2.2.2.2
      { sampleHabit with ID := 1 } (by decide) (by decide)).2.2.2 sampleStoreOps rfl⟩

end HabitTracker
